import Mathlib

/-!
Shallow embedding of the YamUI core of the kc-touch firmware:
the expression evaluator (yamui_expr.c), the reactive state store
(yamui_state.c), the component-scope symbol resolver and text formatter
(lvgl_yaml_gui.c), the navigation deferred-command queue
(yui_navigation_queue.c), the screen-frame stack (lvgl_yaml_gui.c) and the
minimal YAML tree parser (yaml_core.c).  C doubles are modelled as
rationals, C heap allocation is assumed to succeed, and fixed-size output
buffers keep their explicit length bounds.
-/

namespace KcTouch

/-- Error codes used by the embedded code (the esp_err_t values that the
modelled functions actually return). -/
inductive EspErr
  | ok
  | invalidArg
  | invalidState
  | noMem
  | notFound
  | invalidResponse
  | fail
deriving DecidableEq, Repr

/-- Character class of the C `isspace` (C locale). -/
def c_isspace (c : Char) : Bool :=
  c = ' ' || c = '\t' || c = '\n' || c = '\r' || c = '\x0b' || c = '\x0c'

/-! ### Expression evaluator values (yamui_expr.c) -/

/-- Tagged value union of the expression evaluator
(`yui_expr_value_t`): Null, Bool, Number (double, modelled as a rational)
or String. -/
inductive YuiValue
  | null
  | num (q : ℚ)
  | bool (b : Bool)
  | str (s : String)
deriving DecidableEq, Repr

/-- Whether a value carries the STRING tag. -/
def YuiValue.isStr : YuiValue → Bool
  | .str _ => true
  | _ => false

/-- Whether a value carries the BOOL tag. -/
def YuiValue.isBool : YuiValue → Bool
  | .bool _ => true
  | _ => false

/-- Digit run to natural number accumulator (used by the atof model). -/
def yui_digits_to_nat : List Char → Nat → Nat
  | [], acc => acc
  | c :: rest, acc => yui_digits_to_nat rest (acc * 10 + (c.toNat - '0'.toNat))

/-- Model of the C library `atof` on the decimal forms the code produces:
optional whitespace, optional sign, integer digits, optional fraction,
optional decimal exponent.  No conversion yields 0. -/
def yui_atof (s : String) : ℚ :=
  let cs := s.data.dropWhile (fun c => c_isspace c)
  let sign : ℚ := if cs.head? = some '-' then -1 else 1
  let cs := if cs.head? = some '-' || cs.head? = some '+' then cs.tail else cs
  let intD := cs.takeWhile Char.isDigit
  let rest1 := cs.dropWhile Char.isDigit
  let fracD := if rest1.head? = some '.' then rest1.tail.takeWhile Char.isDigit else []
  let rest2 := if rest1.head? = some '.' then rest1.tail.dropWhile Char.isDigit else rest1
  if intD = [] && fracD = [] then 0
  else
    let base : ℚ := (yui_digits_to_nat intD 0 : ℚ) +
      (yui_digits_to_nat fracD 0 : ℚ) / ((10 : ℚ) ^ fracD.length)
    let expPart : ℤ :=
      if rest2.head? = some 'e' || rest2.head? = some 'E' then
        let t := rest2.tail
        let esign : ℤ := if t.head? = some '-' then -1 else 1
        let t := if t.head? = some '-' || t.head? = some '+' then t.tail else t
        esign * (yui_digits_to_nat (t.takeWhile Char.isDigit) 0 : ℤ)
      else 0
    sign * base * (10 : ℚ) ^ expPart

/-- `yui_expr_as_number`: numeric coercion of a value. -/
def yui_expr_as_number : YuiValue → ℚ
  | .num n => n
  | .bool b => if b then 1 else 0
  | .str s => if s = "" then 0 else yui_atof s
  | .null => 0

/-- `yui_expr_as_bool`: boolean coercion of a value (numbers are truthy
when their magnitude exceeds 1e-9, strings when non-empty). -/
def yui_expr_as_bool : YuiValue → Bool
  | .bool b => b
  | .num n => decide (|n| > 1 / 1000000000)
  | .str s => s ≠ ""
  | .null => false

/-- Three-digit zero padding for the `%.3f` fraction. -/
def yui_nat_pad3 (n : Nat) : String :=
  if n < 10 then "00" ++ toString n
  else if n < 100 then "0" ++ toString n
  else toString n

/-- Trailing-zero and trailing-point trimming applied by
`yui_expr_as_cstring` after `snprintf("%.3f")`. -/
def yui_trim_number_string (s : String) : String :=
  let r := s.data.reverse.dropWhile (fun c => c = '0')
  let r := match r with
    | '.' :: t => t
    | other => other
  String.mk r.reverse

/-- `%.3f` rendering of a number followed by the trimming pass
(rounding to the nearest thousandth). -/
def yui_format_number3 (q : ℚ) : String :=
  let signStr := if q < 0 then "-" else ""
  let m : Nat := (round (|q| * 1000) : ℤ).toNat
  yui_trim_number_string (signStr ++ toString (m / 1000) ++ "." ++ yui_nat_pad3 (m % 1000))

/-- `yui_expr_as_cstring`: string rendering of a value. -/
def yui_expr_as_cstring : YuiValue → String
  | .str s => s
  | .num n => yui_format_number3 n
  | .bool b => if b then "true" else "false"
  | .null => ""

/-- `yui_expr_values_equal`: type-aware equality (string compare if either
side is a string, else boolean compare if either is a bool, else numeric
comparison with epsilon 1e-6). -/
def yui_expr_values_equal (l r : YuiValue) : Bool :=
  if l.isStr || r.isStr then yui_expr_as_cstring l = yui_expr_as_cstring r
  else if l.isBool || r.isBool then yui_expr_as_bool l = yui_expr_as_bool r
  else decide (|yui_expr_as_number l - yui_expr_as_number r| < 1 / 1000000)

/-! ### Expression lexer (yamui_expr.c) -/

/-- Token kinds of the expression lexer (`yui_expr_token_type_t`). -/
inductive YuiTokType
  | eof
  | err
  | ident
  | number
  | string
  | ktrue
  | kfalse
  | knull
  | plus
  | minus
  | star
  | slash
  | lparen
  | rparen
  | bang
  | bangEqual
  | equalEqual
  | greater
  | greaterEqual
  | less
  | lessEqual
  | logAnd
  | logOr
  | question
  | colon
  | coalesce
deriving DecidableEq, Repr

/-- One lexer token (`yui_expr_token_t`). -/
structure YuiTok where
  type : YuiTokType
  text : String
  number : ℚ
deriving DecidableEq, Repr

/-- A token with no payload (`yui_expr_make_simple_token`). -/
def yui_expr_make_simple_token (t : YuiTokType) : YuiTok :=
  { type := t, text := "", number := 0 }

/-- Identifier character class (`yui_expr_is_identifier_char`). -/
def yui_expr_is_identifier_char (c : Char) : Bool :=
  c.isAlphanum || c = '_' || c = '.' || c = '-'

/-- Quoted-string scanning with escape handling (`yui_expr_scan_string`);
returns the token and the unconsumed input, an ERROR token if the closing
quote is missing. -/
def yui_expr_scan_string (quote : Char) (acc : List Char) :
    List Char → YuiTok × List Char
  | [] => (yui_expr_make_simple_token .err, [])
  | c :: rest =>
    if c = quote then
      ({ type := .string, text := String.mk acc.reverse, number := 0 }, rest)
    else if c = '\\' then
      match rest with
      | [] => yui_expr_scan_string quote ('\\' :: acc) []
      | n :: rest2 =>
        let m :=
          if n = 'n' then '\n'
          else if n = 't' then '\t'
          else if n = 'r' then '\r'
          else if n = '"' then '"'
          else if n = '\'' then '\''
          else n
        yui_expr_scan_string quote (m :: acc) rest2
    else yui_expr_scan_string quote (c :: acc) rest

/-- Digit/dot run of number scanning (`yui_expr_scan_number` loop): at most
one decimal point is consumed. -/
def yui_expr_scan_number_chars (hasDot : Bool) :
    List Char → List Char × List Char
  | [] => ([], [])
  | c :: rest =>
    if c.isDigit then
      let (a, r) := yui_expr_scan_number_chars hasDot rest
      (c :: a, r)
    else if !hasDot && c = '.' then
      let (a, r) := yui_expr_scan_number_chars true rest
      (c :: a, r)
    else ([], c :: rest)

/-- Identifier scanning with keyword recognition
(`yui_expr_scan_identifier`, case-insensitive true/false/null). -/
def yui_expr_scan_identifier (first : Char) (cs : List Char) :
    YuiTok × List Char :=
  let body := cs.takeWhile yui_expr_is_identifier_char
  let rest := cs.dropWhile yui_expr_is_identifier_char
  let text := String.mk (first :: body)
  let lower := String.mk ((first :: body).map Char.toLower)
  if lower = "true" then (yui_expr_make_simple_token .ktrue, rest)
  else if lower = "false" then (yui_expr_make_simple_token .kfalse, rest)
  else if lower = "null" then (yui_expr_make_simple_token .knull, rest)
  else ({ type := .ident, text := text, number := 0 }, rest)

/-- Number scanning (`yui_expr_scan_number`): collects the digit run and
converts it with `atof`. -/
def yui_expr_scan_number (first : Char) (cs : List Char) :
    YuiTok × List Char :=
  let (body, rest) := yui_expr_scan_number_chars (first = '.') cs
  ({ type := .number, text := "", number := yui_atof (String.mk (first :: body)) }, rest)

/-- `yui_expr_lexer_next_token`: skip whitespace and produce the next
token together with the unconsumed input. -/
def yui_expr_lexer_next_token (cs : List Char) : YuiTok × List Char :=
  let cs := cs.dropWhile (fun c => c = ' ' || c = '\t' || c = '\n' || c = '\r')
  match cs with
  | [] => (yui_expr_make_simple_token .eof, [])
  | c :: rest =>
    if c.isAlpha || c = '_' then yui_expr_scan_identifier c rest
    else if c.isDigit || (c = '.' && (rest.head?.map Char.isDigit).getD false) then
      yui_expr_scan_number c rest
    else if c = '"' || c = '\'' then yui_expr_scan_string c [] rest
    else if c = '+' then (yui_expr_make_simple_token .plus, rest)
    else if c = '-' then (yui_expr_make_simple_token .minus, rest)
    else if c = '*' then (yui_expr_make_simple_token .star, rest)
    else if c = '/' then (yui_expr_make_simple_token .slash, rest)
    else if c = '(' then (yui_expr_make_simple_token .lparen, rest)
    else if c = ')' then (yui_expr_make_simple_token .rparen, rest)
    else if c = '!' then
      match rest with
      | '=' :: rest2 => (yui_expr_make_simple_token .bangEqual, rest2)
      | _ => (yui_expr_make_simple_token .bang, rest)
    else if c = '=' then
      match rest with
      | '=' :: rest2 => (yui_expr_make_simple_token .equalEqual, rest2)
      | _ => (yui_expr_make_simple_token .err, rest)
    else if c = '>' then
      match rest with
      | '=' :: rest2 => (yui_expr_make_simple_token .greaterEqual, rest2)
      | _ => (yui_expr_make_simple_token .greater, rest)
    else if c = '<' then
      match rest with
      | '=' :: rest2 => (yui_expr_make_simple_token .lessEqual, rest2)
      | _ => (yui_expr_make_simple_token .less, rest)
    else if c = '&' then
      match rest with
      | '&' :: rest2 => (yui_expr_make_simple_token .logAnd, rest2)
      | _ => (yui_expr_make_simple_token .err, rest)
    else if c = '|' then
      match rest with
      | '|' :: rest2 => (yui_expr_make_simple_token .logOr, rest2)
      | _ => (yui_expr_make_simple_token .err, rest)
    else if c = '?' then
      match rest with
      | '?' :: rest2 => (yui_expr_make_simple_token .coalesce, rest2)
      | _ => (yui_expr_make_simple_token .question, rest)
    else if c = ':' then (yui_expr_make_simple_token .colon, rest)
    else (yui_expr_make_simple_token .err, rest)

/-! ### Expression recursive-descent evaluator (yamui_expr.c)

The C code is a one-pass parser-evaluator: it evaluates while it parses,
threading a status flag.  The resolver is a function from identifier to an
optional value (`none` models a resolver returning false); every resolver
invocation is logged in `calls`, in invocation order.  The Nat fuel bounds
the recursion depth; the public entry point supplies ample fuel for the
input length, so fuel exhaustion (which reports `invalidArg`) is
unreachable for the inputs considered here. -/

/-- A symbol resolver (`yui_expr_symbol_resolver_t`). -/
abbrev YuiResolver := String → Option YuiValue

/-- Evaluator state (`yui_expr_parser_t`): lexer cursor, current token,
status, plus the instrumentation log of resolver invocations. -/
structure YuiExprPState where
  rest : List Char
  cur : YuiTok
  status : EspErr
  calls : List String
deriving DecidableEq, Repr

/-- `yui_expr_parser_advance`: fetch the next token; an ERROR token sets
the failure status. -/
def yui_expr_parser_advance (p : YuiExprPState) : YuiExprPState :=
  let (t, r) := yui_expr_lexer_next_token p.rest
  { p with
    rest := r
    cur := t
    status := if t.type = .err then .invalidArg else p.status }

/-- `yui_expr_parser_expect`: consume a token of the given type or set the
failure status. -/
def yui_expr_parser_expect (p : YuiExprPState) (t : YuiTokType) : YuiExprPState :=
  if p.cur.type = t then yui_expr_parser_advance p
  else { p with status := .invalidArg }

mutual

/-- `yui_expr_parse_primary`: literals, identifiers (through the
resolver), parenthesised expressions. -/
def yui_expr_parse_primary (ρ : YuiResolver) : Nat → YuiExprPState → YuiValue × YuiExprPState
  | 0, p => (.null, { p with status := .invalidArg })
  | fuel + 1, p =>
    if p.status ≠ .ok then (.null, p)
    else
      match p.cur.type with
      | .number => (.num p.cur.number, yui_expr_parser_advance p)
      | .ktrue => (.bool true, yui_expr_parser_advance p)
      | .kfalse => (.bool false, yui_expr_parser_advance p)
      | .knull => (.null, yui_expr_parser_advance p)
      | .string => (.str p.cur.text, yui_expr_parser_advance p)
      | .ident =>
        let sym := p.cur.text
        let p' := yui_expr_parser_advance p
        let v := match ρ sym with
          | some v => v
          | none => .str ""
        (v, { p' with calls := p'.calls ++ [sym] })
      | .lparen =>
        let p' := yui_expr_parser_advance p
        let (v, p'') := yui_expr_parse_expression ρ fuel p'
        (v, yui_expr_parser_expect p'' .rparen)
      | _ => (.null, { p with status := .invalidArg })
termination_by structural fuel => fuel

/-- `yui_expr_parse_unary`: `!` and unary `-`. -/
def yui_expr_parse_unary (ρ : YuiResolver) : Nat → YuiExprPState → YuiValue × YuiExprPState
  | 0, p => (.null, { p with status := .invalidArg })
  | fuel + 1, p =>
    if p.status ≠ .ok then (.null, p)
    else if p.cur.type = .bang then
      let p' := yui_expr_parser_advance p
      let (v, p'') := yui_expr_parse_unary ρ fuel p'
      (.bool (!yui_expr_as_bool v), p'')
    else if p.cur.type = .minus then
      let p' := yui_expr_parser_advance p
      let (v, p'') := yui_expr_parse_unary ρ fuel p'
      (.num (-yui_expr_as_number v), p'')
    else yui_expr_parse_primary ρ fuel p
termination_by structural fuel => fuel

/-- `yui_expr_parse_factor`: unary operand followed by the `*` `/` loop. -/
def yui_expr_parse_factor (ρ : YuiResolver) : Nat → YuiExprPState → YuiValue × YuiExprPState
  | 0, p => (.null, { p with status := .invalidArg })
  | fuel + 1, p =>
    let (v, p') := yui_expr_parse_unary ρ fuel p
    yui_expr_factor_loop ρ fuel v p'
termination_by structural fuel => fuel

/-- The `*` `/` loop of `yui_expr_parse_factor`; division by zero sets the
failure status and leaves a zero result. -/
def yui_expr_factor_loop (ρ : YuiResolver) : Nat → YuiValue → YuiExprPState → YuiValue × YuiExprPState
  | 0, v, p => (v, { p with status := .invalidArg })
  | fuel + 1, v, p =>
    if p.status = .ok && (p.cur.type = .star || p.cur.type = .slash) then
      let op := p.cur.type
      let p' := yui_expr_parser_advance p
      let (rhs, p'') := yui_expr_parse_unary ρ fuel p'
      let l := yui_expr_as_number v
      let r := yui_expr_as_number rhs
      if op = .star then yui_expr_factor_loop ρ fuel (.num (l * r)) p''
      else if r ≠ 0 then yui_expr_factor_loop ρ fuel (.num (l / r)) p''
      else yui_expr_factor_loop ρ fuel (.num 0) { p'' with status := .invalidArg }
    else (v, p)
termination_by structural fuel => fuel

/-- `yui_expr_parse_term`: factor followed by the `+` `-` loop. -/
def yui_expr_parse_term (ρ : YuiResolver) : Nat → YuiExprPState → YuiValue × YuiExprPState
  | 0, p => (.null, { p with status := .invalidArg })
  | fuel + 1, p =>
    let (v, p') := yui_expr_parse_factor ρ fuel p
    yui_expr_term_loop ρ fuel v p'
termination_by structural fuel => fuel

/-- The `+` `-` loop of `yui_expr_parse_term`; `+` concatenates when
either operand is a string. -/
def yui_expr_term_loop (ρ : YuiResolver) : Nat → YuiValue → YuiExprPState → YuiValue × YuiExprPState
  | 0, v, p => (v, { p with status := .invalidArg })
  | fuel + 1, v, p =>
    if p.status = .ok && (p.cur.type = .plus || p.cur.type = .minus) then
      let op := p.cur.type
      let p' := yui_expr_parser_advance p
      let (rhs, p'') := yui_expr_parse_factor ρ fuel p'
      if op = .plus && (v.isStr || rhs.isStr) then
        yui_expr_term_loop ρ fuel
          (.str (yui_expr_as_cstring v ++ yui_expr_as_cstring rhs)) p''
      else
        let l := yui_expr_as_number v
        let r := yui_expr_as_number rhs
        yui_expr_term_loop ρ fuel
          (.num (if op = .plus then l + r else l - r)) p''
    else (v, p)
termination_by structural fuel => fuel

/-- `yui_expr_parse_comparison`: term followed by the relational loop. -/
def yui_expr_parse_comparison (ρ : YuiResolver) : Nat → YuiExprPState → YuiValue × YuiExprPState
  | 0, p => (.null, { p with status := .invalidArg })
  | fuel + 1, p =>
    let (v, p') := yui_expr_parse_term ρ fuel p
    yui_expr_comparison_loop ρ fuel v p'
termination_by structural fuel => fuel

/-- The `>` `>=` `<` `<=` loop of `yui_expr_parse_comparison` (numeric). -/
def yui_expr_comparison_loop (ρ : YuiResolver) : Nat → YuiValue → YuiExprPState → YuiValue × YuiExprPState
  | 0, v, p => (v, { p with status := .invalidArg })
  | fuel + 1, v, p =>
    if p.status = .ok &&
        (p.cur.type = .greater || p.cur.type = .greaterEqual ||
         p.cur.type = .less || p.cur.type = .lessEqual) then
      let op := p.cur.type
      let p' := yui_expr_parser_advance p
      let (rhs, p'') := yui_expr_parse_term ρ fuel p'
      let l := yui_expr_as_number v
      let r := yui_expr_as_number rhs
      let b :=
        if op = .greater then decide (l > r)
        else if op = .greaterEqual then decide (l ≥ r)
        else if op = .less then decide (l < r)
        else decide (l ≤ r)
      yui_expr_comparison_loop ρ fuel (.bool b) p''
    else (v, p)
termination_by structural fuel => fuel

/-- `yui_expr_parse_equality`: comparison followed by the `==` `!=` loop. -/
def yui_expr_parse_equality (ρ : YuiResolver) : Nat → YuiExprPState → YuiValue × YuiExprPState
  | 0, p => (.null, { p with status := .invalidArg })
  | fuel + 1, p =>
    let (v, p') := yui_expr_parse_comparison ρ fuel p
    yui_expr_equality_loop ρ fuel v p'
termination_by structural fuel => fuel

/-- The `==` `!=` loop of `yui_expr_parse_equality`. -/
def yui_expr_equality_loop (ρ : YuiResolver) : Nat → YuiValue → YuiExprPState → YuiValue × YuiExprPState
  | 0, v, p => (v, { p with status := .invalidArg })
  | fuel + 1, v, p =>
    if p.status = .ok && (p.cur.type = .equalEqual || p.cur.type = .bangEqual) then
      let op := p.cur.type
      let p' := yui_expr_parser_advance p
      let (rhs, p'') := yui_expr_parse_comparison ρ fuel p'
      let eq := yui_expr_values_equal v rhs
      yui_expr_equality_loop ρ fuel
        (.bool (if op = .bangEqual then !eq else eq)) p''
    else (v, p)
termination_by structural fuel => fuel

/-- `yui_expr_parse_and`: equality followed by the `&&` loop. -/
def yui_expr_parse_and (ρ : YuiResolver) : Nat → YuiExprPState → YuiValue × YuiExprPState
  | 0, p => (.null, { p with status := .invalidArg })
  | fuel + 1, p =>
    let (v, p') := yui_expr_parse_equality ρ fuel p
    yui_expr_and_loop ρ fuel v p'
termination_by structural fuel => fuel

/-- The `&&` loop of `yui_expr_parse_and` (both sides are evaluated). -/
def yui_expr_and_loop (ρ : YuiResolver) : Nat → YuiValue → YuiExprPState → YuiValue × YuiExprPState
  | 0, v, p => (v, { p with status := .invalidArg })
  | fuel + 1, v, p =>
    if p.status = .ok && p.cur.type = .logAnd then
      let p' := yui_expr_parser_advance p
      let (rhs, p'') := yui_expr_parse_equality ρ fuel p'
      yui_expr_and_loop ρ fuel
        (.bool (yui_expr_as_bool v && yui_expr_as_bool rhs)) p''
    else (v, p)
termination_by structural fuel => fuel

/-- `yui_expr_parse_or`: conjunction followed by the `||` loop. -/
def yui_expr_parse_or (ρ : YuiResolver) : Nat → YuiExprPState → YuiValue × YuiExprPState
  | 0, p => (.null, { p with status := .invalidArg })
  | fuel + 1, p =>
    let (v, p') := yui_expr_parse_and ρ fuel p
    yui_expr_or_loop ρ fuel v p'
termination_by structural fuel => fuel

/-- The `||` loop of `yui_expr_parse_or` (both sides are evaluated). -/
def yui_expr_or_loop (ρ : YuiResolver) : Nat → YuiValue → YuiExprPState → YuiValue × YuiExprPState
  | 0, v, p => (v, { p with status := .invalidArg })
  | fuel + 1, v, p =>
    if p.status = .ok && p.cur.type = .logOr then
      let p' := yui_expr_parser_advance p
      let (rhs, p'') := yui_expr_parse_and ρ fuel p'
      yui_expr_or_loop ρ fuel
        (.bool (yui_expr_as_bool v || yui_expr_as_bool rhs)) p''
    else (v, p)
termination_by structural fuel => fuel

/-- `yui_expr_parse_coalesce`: disjunction followed by the `??` loop. -/
def yui_expr_parse_coalesce (ρ : YuiResolver) : Nat → YuiExprPState → YuiValue × YuiExprPState
  | 0, p => (.null, { p with status := .invalidArg })
  | fuel + 1, p =>
    let (v, p') := yui_expr_parse_or ρ fuel p
    yui_expr_coalesce_loop ρ fuel v p'
termination_by structural fuel => fuel

/-- The `??` loop of `yui_expr_parse_coalesce`.  When the left value is
non-null and not an empty string, the right operand is still parsed and
evaluated, and only its value is discarded (`skipped` in the C source). -/
def yui_expr_coalesce_loop (ρ : YuiResolver) : Nat → YuiValue → YuiExprPState → YuiValue × YuiExprPState
  | 0, v, p => (v, { p with status := .invalidArg })
  | fuel + 1, v, p =>
    if p.status = .ok && p.cur.type = .coalesce then
      let p' := yui_expr_parser_advance p
      if v ≠ .null && v ≠ .str "" then
        let (_, p'') := yui_expr_parse_or ρ fuel p'
        yui_expr_coalesce_loop ρ fuel v p''
      else
        let (v2, p'') := yui_expr_parse_or ρ fuel p'
        yui_expr_coalesce_loop ρ fuel v2 p''
    else (v, p)
termination_by structural fuel => fuel

/-- `yui_expr_parse_ternary`: both branches are parsed and evaluated; the
condition then selects which branch value is kept. -/
def yui_expr_parse_ternary (ρ : YuiResolver) : Nat → YuiExprPState → YuiValue × YuiExprPState
  | 0, p => (.null, { p with status := .invalidArg })
  | fuel + 1, p =>
    let (cond, p') := yui_expr_parse_coalesce ρ fuel p
    if p'.status = .ok && p'.cur.type = .question then
      let c := yui_expr_as_bool cond
      let p1 := yui_expr_parser_advance p'
      let (tB, p2) := yui_expr_parse_expression ρ fuel p1
      let p3 := yui_expr_parser_expect p2 .colon
      let (fB, p4) := yui_expr_parse_expression ρ fuel p3
      (if c then tB else fB, p4)
    else (cond, p')
termination_by structural fuel => fuel

/-- `yui_expr_parse_expression`: the grammar entry point. -/
def yui_expr_parse_expression (ρ : YuiResolver) : Nat → YuiExprPState → YuiValue × YuiExprPState
  | 0, p => (.null, { p with status := .invalidArg })
  | fuel + 1, p => yui_expr_parse_ternary ρ fuel p

termination_by structural fuel => fuel
end

/-- Fuel supplied by the evaluation entry points: generous for the input
length, so that fuel exhaustion is unreachable on the inputs considered. -/
def yui_expr_fuel (expr : String) : Nat :=
  32 * (expr.length + 2)

/-- `yui_expr_eval` with explicit fuel: prime the first token, parse one
expression, and report the final status.  The second component is the
instrumentation log of resolver invocations. -/
def yui_expr_eval_fuel (fuel : Nat) (expr : String) (ρ : YuiResolver) :
    Except EspErr YuiValue × List String :=
  let p0 : YuiExprPState :=
    { rest := expr.data, cur := yui_expr_make_simple_token .eof
      status := .ok, calls := [] }
  let p1 := yui_expr_parser_advance p0
  let (v, p2) := yui_expr_parse_expression ρ fuel p1
  if p2.status ≠ .ok then (.error p2.status, p2.calls)
  else (.ok v, p2.calls)

/-- `yui_expr_eval(expression, resolver, ctx, out_value)`. -/
def yui_expr_eval (expr : String) (ρ : YuiResolver) :
    Except EspErr YuiValue × List String :=
  yui_expr_eval_fuel (yui_expr_fuel expr) expr ρ

/-- `yui_expr_eval_to_string`: evaluate and render into a bounded output
buffer of `out_len` bytes (at most `out_len - 1` characters are kept). -/
def yui_expr_eval_to_string (expr : String) (ρ : YuiResolver) (out_len : Nat) :
    Except EspErr String × List String :=
  if out_len = 0 then (.error .invalidArg, [])
  else
    match yui_expr_eval expr ρ with
    | (.error e, calls) => (.error e, calls)
    | (.ok v, calls) =>
      (.ok (String.mk ((yui_expr_as_cstring v).data.take (out_len - 1))), calls)

/-! ### Reactive state store (yamui_state.c)

The store is a key/value entry list in insertion order plus a watcher
list in registration order.  Callbacks are modelled by their watch ids:
`yui_state_set_internal` returns the ids of the watchers whose callbacks
fire, in firing order.  Heap allocation is assumed to succeed and the
recursive lock is a no-op in this sequential model. -/

/-- One key/value pair of the store (`yui_state_entry_t`). -/
structure YuiStateEntry where
  key : String
  value : String
deriving DecidableEq, Repr

/-- One registered watch (`struct yui_state_watch`); the callback and its
context are identified by the watch id, and a NULL or empty key (the
wildcard) is modelled by the empty string. -/
structure YuiStateWatch where
  id : Nat
  key : String
deriving DecidableEq, Repr

/-- The whole store: entries plus watchers (`s_entries`, `s_watchers`). -/
structure YuiStateStore where
  entries : List YuiStateEntry
  watchers : List YuiStateWatch
deriving DecidableEq, Repr

/-- `yui_state_watch_matches`: wildcard watches match every key. -/
def yui_state_watch_matches (w : YuiStateWatch) (key : String) : Bool :=
  w.key = "" || w.key = key

/-- `yui_state_find_index`/entry lookup: the value stored at a key. -/
def yui_state_get_opt : List YuiStateEntry → String → Option String
  | [], _ => none
  | e :: rest, key => if e.key = key then some e.value else yui_state_get_opt rest key

/-- `yui_state_get(key, default)`: lookup with a default; empty keys are
rejected. -/
def yui_state_get (entries : List YuiStateEntry) (key defaultValue : String) : String :=
  if key = "" then defaultValue
  else
    match yui_state_get_opt entries key with
    | some v => v
    | none => defaultValue

/-- The find/update/append core of `yui_state_set_internal`: update the
first entry with the key (a no-op when the value already matches,
reported by the Bool), or append a new entry. -/
def yui_state_entries_set : List YuiStateEntry → String → String → List YuiStateEntry × Bool
  | [], k, v => ([{ key := k, value := v }], true)
  | e :: rest, k, v =>
    if e.key = k then
      if e.value = v then (e :: rest, false)
      else ({ e with value := v } :: rest, true)
    else
      let (r, u) := yui_state_entries_set rest k v
      (e :: r, u)

/-- `yui_state_set_internal(key, value, notify)`: rejects empty keys,
short-circuits when the stored value already equals the new one, and
otherwise commits the value; when `notify` is set and a mutation happened
the matching watchers fire in registration order (returned as ids). -/
def yui_state_set_internal (st : YuiStateStore) (key value : String) (notify : Bool) :
    Except EspErr (YuiStateStore × List Nat) :=
  if key = "" then .error .invalidArg
  else
    let (entries2, updated) := yui_state_entries_set st.entries key value
    let notifs :=
      if notify && updated then
        (st.watchers.filter (fun w => yui_state_watch_matches w key)).map (fun w => w.id)
      else []
    .ok ({ st with entries := entries2 }, notifs)

/-- `yui_state_set(key, value)`. -/
def yui_state_set (st : YuiStateStore) (key value : String) :
    Except EspErr (YuiStateStore × List Nat) :=
  yui_state_set_internal st key value true

/-- `yui_state_seed(entries, entry_count)`: silent writes (notify=false)
of each pair, skipping NULL/empty keys; notification ids are accumulated
to make the silence provable. -/
def yui_state_seed : YuiStateStore → List (String × String) →
    Except EspErr (YuiStateStore × List Nat)
  | st, [] => .ok (st, [])
  | st, (k, v) :: rest =>
    if k = "" then yui_state_seed st rest
    else
      match yui_state_set_internal st k v false with
      | .error e => .error e
      | .ok (st2, ns) =>
        match yui_state_seed st2 rest with
        | .error e => .error e
        | .ok (st3, ns2) => .ok (st3, ns ++ ns2)

/-- `yui_state_seed_from_yaml(state_node)`: iterate the mapping children
(key and optional scalar), skip empty keys and keys that already have a
value in the store, and silently set the rest. -/
def yui_state_seed_from_yaml : YuiStateStore → List (Option String × Option String) →
    Except EspErr (YuiStateStore × List Nat)
  | st, [] => .ok (st, [])
  | st, (key?, scalar?) :: rest =>
    match key? with
    | none => yui_state_seed_from_yaml st rest
    | some k =>
      if k = "" then yui_state_seed_from_yaml st rest
      else
        match yui_state_get_opt st.entries k with
        | some _ => yui_state_seed_from_yaml st rest
        | none =>
          match yui_state_set_internal st k (scalar?.getD "") false with
          | .error e => .error e
          | .ok (st2, ns) =>
            match yui_state_seed_from_yaml st2 rest with
            | .error e => .error e
            | .ok (st3, ns2) => .ok (st3, ns ++ ns2)

/-! ### Component scopes and text interpolation (lvgl_yaml_gui.c)

A component scope (`yui_component_scope_t`) binds declared prop names to
caller-supplied template strings and links to its parent scope.  The
parent chain is modelled as a list of prop lists, innermost scope first
(the empty list is the NULL scope).  `yui_format_text` substitutes each
`\x7b\x7bexpr\x7d\x7d` span of a template by evaluating it through
`yui_expression_symbol_resolver`, which consults the scope chain first
and falls back to the global state store; resolving a prop re-formats the
prop template against the parent scope, so the two functions are mutually
recursive along the parent chain.  The Nat fuel bounds that chain
descent; each formatting pass computes its own per-character loop fuel
from the template length, which is always sufficient. -/

/-- One prop binding of a scope (`yui_component_prop_t`): the declared
name and the caller-supplied template text (the resolved-value cache is
not modelled: it is recomputed deterministically). -/
structure YuiComponentProp where
  name : String
  template_value : String
deriving DecidableEq, Repr

/-- A scope chain: the props of the innermost scope first, then the
parent's, and so on (`parent` pointers flattened into a list). -/
abbrev YuiScopeChain := List (List YuiComponentProp)

/-- `yui_scope_find_prop`: search the scope and then its ancestors for
the first prop with the given name. -/
def yui_scope_find_prop : YuiScopeChain → String → Option YuiComponentProp
  | [], _ => none
  | props :: parent, name =>
    match props.find? (fun p => p.name = name) with
    | some p => some p
    | none => yui_scope_find_prop parent name

/-- `strstr(tmpl, "\x7d\x7d")`: split at the first closing double brace,
returning the text before it and the text after it. -/
def yui_find_close_brace : List Char → Option (List Char × List Char)
  | [] => none
  | '}' :: '}' :: rest => some ([], rest)
  | c :: rest =>
    match yui_find_close_brace rest with
    | some (e, after) => some (c :: e, after)
    | none => none

/-- The character loop of `yui_format_text`, accumulating into a bounded
output buffer of `out_len` bytes: literal characters are copied while
they fit, and each `\x7b\x7bexpr\x7d\x7d` span is evaluated into the
remaining space (a failed evaluation contributes nothing).  The Nat
argument is the loop fuel (one unit per iteration, so template length
plus one always suffices). -/
def yui_format_text_loop (res : String → YuiValue) (out_len : Nat) :
    Nat → List Char → List Char → List Char
  | 0, _, acc => acc
  | fuel + 1, tmpl, acc =>
    match tmpl with
    | [] => acc
    | c :: rest =>
      if acc.length + 1 < out_len then
        if c = '{' && rest.head? = some '{' then
          match yui_find_close_brace rest.tail with
          | none => acc
          | some (expr, after) =>
            match yui_expr_eval_to_string (String.mk expr) (fun id => some (res id))
                (out_len - acc.length) with
            | (.ok t, _) => yui_format_text_loop res out_len fuel after (acc ++ t.data)
            | (.error _, _) => yui_format_text_loop res out_len fuel after acc
        else yui_format_text_loop res out_len fuel rest (acc ++ [c])
      else acc

/-- One step of `yui_scope_resolve_prop` built over the previous-level
formatter: find the prop along the chain and format its template against
the parent of the scope the resolver was handed
(`resolver_scope = scope->parent`), into the 256-byte text buffer. -/
def yui_mk_resolve_prop (fmt : String → YuiScopeChain → List YuiStateEntry → Nat → String)
    (chain : YuiScopeChain) (store : List YuiStateEntry) (name : String) : Option String :=
  match yui_scope_find_prop chain name with
  | none => none
  | some prop => some (fmt prop.template_value chain.tail store 256)

/-- One step of `yui_expression_symbol_resolver` built over the
previous-level formatter: empty identifiers resolve to the reset (null)
value, scope props win, and everything else falls back to a state-store
lookup with an empty-string default. -/
def yui_mk_symbol_resolver (fmt : String → YuiScopeChain → List YuiStateEntry → Nat → String)
    (chain : YuiScopeChain) (store : List YuiStateEntry) (ident : String) : YuiValue :=
  if ident = "" then .null
  else
    let fromScope := if chain ≠ [] then yui_mk_resolve_prop fmt chain store ident else none
    match fromScope with
    | some s => .str s
    | none => .str (yui_state_get store ident "")

/-- One step of `yui_format_text` built over the previous-level resolver:
run the character loop with a self-computed loop fuel. -/
def yui_mk_format_text (res : YuiScopeChain → List YuiStateEntry → String → YuiValue)
    (tmpl : String) (chain : YuiScopeChain) (store : List YuiStateEntry)
    (out_len : Nat) : String :=
  if out_len = 0 then ""
  else String.mk (yui_format_text_loop (res chain store) out_len (tmpl.length + 1) tmpl.data [])

/-- The fuel-indexed tower tying `yui_expression_symbol_resolver` and
`yui_format_text` together: each level uses the other function at the
previous level, mirroring the descent along scope parents. -/
def yui_scope_fns : Nat →
    (YuiScopeChain → List YuiStateEntry → String → YuiValue) ×
    (String → YuiScopeChain → List YuiStateEntry → Nat → String)
  | 0 => (fun _ _ _ => .str "", fun _ _ _ _ => "")
  | fuel + 1 =>
    let prev := yui_scope_fns fuel
    (yui_mk_symbol_resolver prev.2, yui_mk_format_text prev.1)

/-- `yui_expression_symbol_resolver(identifier, ctx, out)` at a given
chain-descent fuel. -/
def yui_expression_symbol_resolver (fuel : Nat) (chain : YuiScopeChain)
    (store : List YuiStateEntry) (ident : String) : YuiValue :=
  (yui_scope_fns fuel).1 chain store ident

/-- `yui_format_text(tmpl, scope, out, out_len)` at a given chain-descent
fuel. -/
def yui_format_text (fuel : Nat) (tmpl : String) (chain : YuiScopeChain)
    (store : List YuiStateEntry) (out_len : Nat) : String :=
  (yui_scope_fns fuel).2 tmpl chain store out_len

/-! ### Navigation deferred-command queue (yui_navigation_queue.c)

The queue module state is the pending FIFO (`s_queue`), the rendering
flag (`s_rendering`) and an injected executor.  The executor receives the
request and the full module state plus an abstract payload `σ` standing
for the rest of the world (the navigation stack, the renderer, ...); its
C counterpart can in principle touch the queue globals re-entrantly, so
the model lets it.  The drain loop gets an explicit fuel because an
adversarial executor could enqueue forever; every theorem supplies enough
fuel for the queue at hand. -/

/-- `yui_nav_request_type_t`. -/
inductive YuiNavReqType
  | goto_screen
  | push
  | pop
  | showModal
  | closeModal
deriving DecidableEq, Repr

/-- One queued navigation request (`yui_nav_request_t`). -/
structure YuiNavRequest where
  type : YuiNavReqType
  arg : Option String
deriving DecidableEq, Repr

/-- The queue module state plus the abstract rest-of-world payload. -/
structure YuiNavQueueState (σ : Type) where
  queue : List YuiNavRequest
  rendering : Bool
  user : σ
deriving DecidableEq, Repr

/-- An injected executor (`yui_nav_request_executor_t`). -/
abbrev YuiNavExecutor (σ : Type) :=
  YuiNavReqType → Option String → YuiNavQueueState σ → EspErr × YuiNavQueueState σ

/-- An executor that only touches the rest-of-world payload (the shape of
every executor wired in this firmware: the queue globals are only reached
again through submit/render entry points, not mutated behind the module's
back). -/
def yui_nav_lift_executor {σ : Type} (f : YuiNavRequest → σ → EspErr × σ) :
    YuiNavExecutor σ :=
  fun t a s =>
    let (e, u) := f { type := t, arg := a } s.user
    (e, { s with user := u })

/-- `yui_nav_queue_depth()`. -/
def yui_nav_queue_depth {σ : Type} (s : YuiNavQueueState σ) : Nat :=
  s.queue.length

/-- The drain loop of `yui_nav_queue_process`: pop the head, execute it,
stop on the first failure or when a nested render began, otherwise keep
draining. -/
def yui_nav_process_loop {σ : Type} (exec : YuiNavExecutor σ) :
    Nat → YuiNavQueueState σ → YuiNavQueueState σ
  | 0, s => s
  | fuel + 1, s =>
    match s.queue with
    | [] => s
    | r :: rest =>
      let (err, s2) := exec r.type r.arg { s with queue := rest }
      if err ≠ .ok then s2
      else if s2.rendering then s2
      else yui_nav_process_loop exec fuel s2

/-- `yui_nav_queue_process()`: a no-op while rendering. -/
def yui_nav_queue_process {σ : Type} (exec : YuiNavExecutor σ) (fuel : Nat)
    (s : YuiNavQueueState σ) : YuiNavQueueState σ :=
  if s.rendering then s else yui_nav_process_loop exec fuel s

/-- `yui_nav_queue_submit(type, arg)`: execute immediately when idle with
an empty queue, otherwise append to the FIFO and report success. -/
def yui_nav_queue_submit {σ : Type} (exec : YuiNavExecutor σ) (req : YuiNavRequest)
    (s : YuiNavQueueState σ) : EspErr × YuiNavQueueState σ :=
  let queue_pending := s.rendering || s.queue ≠ []
  if !queue_pending then exec req.type req.arg s
  else (.ok, { s with queue := s.queue ++ [req] })

/-- `yui_nav_queue_begin_render()`. -/
def yui_nav_queue_begin_render {σ : Type} (s : YuiNavQueueState σ) :
    EspErr × YuiNavQueueState σ :=
  if s.rendering then (.invalidState, s)
  else (.ok, { s with rendering := true })

/-- `yui_nav_queue_end_render(success)`: leave the Rendering state and,
on success, drain the deferred queue. -/
def yui_nav_queue_end_render {σ : Type} (exec : YuiNavExecutor σ) (fuel : Nat)
    (success : Bool) (s : YuiNavQueueState σ) : YuiNavQueueState σ :=
  if !s.rendering then s
  else
    let s2 := { s with rendering := false }
    if success then yui_nav_queue_process exec fuel s2 else s2

/-! ### Screen-frame navigation stack (lvgl_yaml_gui.c)

The stack (`s_nav_stack`) is modelled with the top frame first.  The
injected `render` function abstracts `yui_render_screen` and everything
behind it: the mutation of the stack never depends on its outcome. -/

/-- One navigation stack entry (`yui_screen_frame_t`); the screen name
may be NULL (a `goto` with a NULL argument stores a NULL name). -/
structure YuiScreenFrame where
  screen_name : Option String
deriving DecidableEq, Repr

/-- `yui_navigation_render_current()`: fails on an empty stack, otherwise
renders the top frame through the injected renderer. -/
def yui_navigation_render_current (render : YuiScreenFrame → EspErr) :
    List YuiScreenFrame → EspErr
  | [] => .invalidState
  | f :: _ => render f

/-- `yui_navigation_push(screen)`: requires a loaded schema, pushes a
frame named after the argument (or the schema default) and renders it. -/
def yui_navigation_push (render : YuiScreenFrame → EspErr) (loaded : Bool)
    (defaultScreen : Option String) (screen : Option String)
    (st : List YuiScreenFrame) : EspErr × List YuiScreenFrame :=
  if !loaded then (.invalidState, st)
  else
    let frame : YuiScreenFrame :=
      { screen_name := match screen with
        | some s => some s
        | none => defaultScreen }
    let st2 := frame :: st
    (yui_navigation_render_current render st2, st2)

/-- `yui_navigation_replace_top(screen)`: replace the top frame's name
(or push when the stack is empty) and re-render. -/
def yui_navigation_replace_top (render : YuiScreenFrame → EspErr) (loaded : Bool)
    (defaultScreen : Option String) (screen : Option String)
    (st : List YuiScreenFrame) : EspErr × List YuiScreenFrame :=
  match st with
  | [] => yui_navigation_push render loaded defaultScreen screen st
  | _ :: rest =>
    let st2 : List YuiScreenFrame := { screen_name := screen } :: rest
    (yui_navigation_render_current render st2, st2)

/-- `yui_navigation_pop_internal()`: rejected outright when at most one
frame remains; otherwise drop the top frame and render the new top. -/
def yui_navigation_pop_internal (render : YuiScreenFrame → EspErr)
    (st : List YuiScreenFrame) : EspErr × List YuiScreenFrame :=
  if st.length ≤ 1 then (.invalidState, st)
  else
    let st2 := st.tail
    (yui_navigation_render_current render st2, st2)

/-- The three screen-stack operations reachable once the system is
initialized (submitted requests funnel into these). -/
inductive YuiNavOp
  | pushOp (screen : Option String)
  | gotoOp (screen : Option String)
  | popOp
deriving DecidableEq, Repr

/-- One navigation operation applied to the stack. -/
def yui_navigation_step (render : YuiScreenFrame → EspErr) (loaded : Bool)
    (defaultScreen : Option String) (op : YuiNavOp)
    (st : List YuiScreenFrame) : EspErr × List YuiScreenFrame :=
  match op with
  | .pushOp s => yui_navigation_push render loaded defaultScreen s st
  | .gotoOp s => yui_navigation_replace_top render loaded defaultScreen s st
  | .popOp => yui_navigation_pop_internal render st

/-- A whole sequence of navigation operations (errors leave the stack as
the failed operation left it, matching the C globals). -/
def yui_navigation_run (render : YuiScreenFrame → EspErr) (loaded : Bool)
    (defaultScreen : Option String) (ops : List YuiNavOp)
    (st : List YuiScreenFrame) : List YuiScreenFrame :=
  ops.foldl (fun acc op => (yui_navigation_step render loaded defaultScreen op acc).2) st

/-! ### Minimal YAML tree parser (yaml_core.c)

Nodes live in an id-indexed store (modelling the heap); the parse stack
holds node ids with their indentation, top first, and the implicit root
sits at the bottom with indentation -1.  `yml_next_line`'s cursor scan is
modelled by first splitting the buffer at newline runs and then
processing each raw line. -/

/-- `YML_MAX_STACK_DEPTH`. -/
def YML_MAX_STACK_DEPTH : Nat := 32

/-- `yml_node_type_t`. -/
inductive YmlNodeType
  | unset
  | mapping
  | sequence
  | scalar
deriving DecidableEq, Repr

/-- One tree node (`struct yml_node`); children are ids into the node
store, in insertion order. -/
structure YmlNodeRec where
  type : YmlNodeType
  key : Option String
  scalar : Option String
  children : List Nat
deriving DecidableEq, Repr

/-- One classified input line (`yml_line_t`). -/
structure YmlLine where
  indent : Int
  is_sequence : Bool
  has_colon : Bool
  key : Option String
  value : Option String
deriving DecidableEq, Repr

/-- Parser state: the node store (index = id) and the stack of open
containers with their indentations, top first. -/
structure YmlParseState where
  nodes : List YmlNodeRec
  stack : List (Nat × Int)
deriving DecidableEq, Repr

/-- Helper of the line splitter: fold from the right, cutting at newline
characters and dropping empty segments (consecutive separators). -/
def yml_split_aux : List Char → List Char × List (List Char)
  | [] => ([], [])
  | c :: rest =>
    let (cur, done) := yml_split_aux rest
    if c = '\n' || c = '\r' then
      ([], if cur = [] then done else cur :: done)
    else (c :: cur, done)

/-- Split the buffer into its non-empty physical lines (the cursor scan
of `yml_next_line`). -/
def yml_split_lines (cs : List Char) : List (List Char) :=
  let (cur, done) := yml_split_aux cs
  if cur = [] then done else cur :: done

/-- Comment stripping of `yml_next_line`: cut at the first `#` that is
outside quotes; quotes toggle unless preceded by a backslash. -/
def yml_strip_comment_aux (inq : Bool) (qc : Char) (prev : Option Char) :
    List Char → List Char
  | [] => []
  | c :: rest =>
    if (c = '"' || c = '\'') && prev ≠ some '\\' then
      if inq && c = qc then c :: yml_strip_comment_aux false '\x00' (some c) rest
      else if !inq then c :: yml_strip_comment_aux true c (some c) rest
      else c :: yml_strip_comment_aux inq qc (some c) rest
    else if c = '#' && !inq then []
    else c :: yml_strip_comment_aux inq qc (some c) rest

/-- Comment stripping entry point. -/
def yml_strip_comment (cs : List Char) : List Char :=
  yml_strip_comment_aux false '\x00' none cs

/-- `yml_trim`: strip surrounding whitespace, then one matching pair of
surrounding quotes (only when at least two characters remain). -/
def yml_trim (cs : List Char) : List Char :=
  let t := ((cs.dropWhile (fun c => c_isspace c)).reverse.dropWhile
    (fun c => c_isspace c)).reverse
  match t with
  | [] => []
  | first :: _ =>
    if ((first = '"' && t.getLast? = some '"') ||
        (first = '\'' && t.getLast? = some '\'')) && 2 ≤ t.length then
      (t.drop 1).dropLast
    else t

/-- `yml_find_unquoted_colon`: split the payload at the first `:` outside
quotes; quotes toggle unless preceded by a backslash. -/
def yml_find_unquoted_colon_aux (inq : Bool) (qc : Char) (prev : Option Char)
    (acc : List Char) : List Char → Option (List Char × List Char)
  | [] => none
  | c :: rest =>
    if (c = '"' || c = '\'') && prev ≠ some '\\' then
      if inq && c = qc then
        yml_find_unquoted_colon_aux false '\x00' (some c) (c :: acc) rest
      else if !inq then
        yml_find_unquoted_colon_aux true c (some c) (c :: acc) rest
      else yml_find_unquoted_colon_aux inq qc (some c) (c :: acc) rest
    else if c = ':' && !inq then some (acc.reverse, rest)
    else yml_find_unquoted_colon_aux inq qc (some c) (c :: acc) rest

/-- Colon split entry point. -/
def yml_find_unquoted_colon (cs : List Char) : Option (List Char × List Char) :=
  yml_find_unquoted_colon_aux false '\x00' none [] cs

/-- The per-line classification of `yml_next_line`: indentation count
(tabs are a fatal error), comment stripping, trimming, `- ` sequence
marker, and key/value split at the first unquoted colon.  `none` stands
for a line the parser skips (blank or comment-only). -/
def yml_parse_content_line (seg : List Char) : Except EspErr (Option YmlLine) :=
  let indent := (seg.takeWhile (fun c => c = ' ')).length
  let afterIndent := seg.drop indent
  match afterIndent with
  | [] => .ok none
  | c :: _ =>
    if c = '\t' then .error .invalidResponse
    else
      let content := yml_trim (yml_strip_comment afterIndent)
      match content with
      | [] => .ok none
      | c0 :: rest0 =>
        let is_sequence := c0 = '-' && (rest0 = [] || (rest0.head?.map c_isspace).getD false)
        let payload := if is_sequence then rest0.dropWhile (fun c => c_isspace c) else c0 :: rest0
        match yml_find_unquoted_colon payload with
        | some (before, after) =>
          let key := String.mk (yml_trim before)
          let value := yml_trim after
          .ok (some
            { indent := (indent : Int), is_sequence := is_sequence, has_colon := true
              key := some key
              value := if value = [] then none else some (String.mk value) })
        | none =>
          if !is_sequence then .error .invalidResponse
          else
            let value := yml_trim payload
            .ok (some
              { indent := (indent : Int), is_sequence := is_sequence, has_colon := false
                key := none
                value := if value = [] then none else some (String.mk value) })

/-- `yml_node_create` on the store: append a fresh node, returning its id. -/
def yml_store_new_node (st : YmlParseState) (node : YmlNodeRec) : YmlParseState × Nat :=
  ({ st with nodes := st.nodes ++ [node] }, st.nodes.length)

/-- Read a node from the store (ids handed out by the parser are always
in range). -/
def yml_store_get (st : YmlParseState) (id : Nat) : YmlNodeRec :=
  (st.nodes.getD id { type := .unset, key := none, scalar := none, children := [] })

/-- Replace a node in the store. -/
def yml_store_set (st : YmlParseState) (id : Nat) (node : YmlNodeRec) : YmlParseState :=
  { st with nodes := st.nodes.set id node }

/-- `yml_node_append_child` on the store. -/
def yml_store_append_child (st : YmlParseState) (parent child : Nat) : YmlParseState :=
  let p := yml_store_get st parent
  yml_store_set st parent { p with children := p.children ++ [child] }

/-- The depth-guarded stack push shared by the line processors
(`if (*depth >= YML_MAX_STACK_DEPTH) ... stack[*depth] = ...; (*depth)++`). -/
def yml_stack_push (st : YmlParseState) (id : Nat) (indent : Int) :
    Except EspErr YmlParseState :=
  if YML_MAX_STACK_DEPTH ≤ st.stack.length then .error .invalidResponse
  else .ok { st with stack := (id, indent) :: st.stack }

/-- `yml_process_sequence_line`. -/
def yml_process_sequence_line (line : YmlLine) (st : YmlParseState) :
    Except EspErr YmlParseState :=
  match st.stack with
  | [] => .error .invalidResponse
  | (pid, _) :: _ =>
    let parent := yml_store_get st pid
    let parent := if parent.type = .unset then { parent with type := .sequence } else parent
    if parent.type ≠ .sequence then .error .invalidResponse
    else
      let st := yml_store_set st pid parent
      let (st, eid) := yml_store_new_node st
        { type := .unset, key := none, scalar := none, children := [] }
      let st := yml_store_append_child st pid eid
      if line.has_colon && line.key ≠ none then
        let st := yml_store_set st eid { yml_store_get st eid with type := .mapping }
        let child : YmlNodeRec :=
          match line.value with
          | some v => { type := .scalar, key := line.key, scalar := some v, children := [] }
          | none => { type := .unset, key := line.key, scalar := none, children := [] }
        let (st, cid) := yml_store_new_node st child
        let st := yml_store_append_child st eid cid
        yml_stack_push st eid line.indent
      else
        match line.value with
        | some v =>
          .ok (yml_store_set st eid
            { yml_store_get st eid with type := .scalar, scalar := some v })
        | none => yml_stack_push st eid line.indent

/-- `yml_process_mapping_line`. -/
def yml_process_mapping_line (line : YmlLine) (st : YmlParseState) :
    Except EspErr YmlParseState :=
  if line.key = none then .error .invalidResponse
  else
    match st.stack with
    | [] => .error .invalidResponse
    | (pid, _) :: _ =>
      let parent := yml_store_get st pid
      let parent := if parent.type = .unset then { parent with type := .mapping } else parent
      if parent.type ≠ .mapping then .error .invalidResponse
      else
        let st := yml_store_set st pid parent
        let node : YmlNodeRec :=
          match line.value with
          | some v => { type := .scalar, key := line.key, scalar := some v, children := [] }
          | none => { type := .unset, key := line.key, scalar := none, children := [] }
        let (st, nid) := yml_store_new_node st node
        let st := yml_store_append_child st pid nid
        if node.type ≠ .scalar then yml_stack_push st nid line.indent
        else .ok st

/-- One iteration of the `yaml_core_parse_buffer` loop: pop the stack
while the line's indentation is at most the top's, fail if nothing is
left, then process the line as a sequence or mapping entry. -/
def yml_parse_step (st : YmlParseState) (line : YmlLine) : Except EspErr YmlParseState :=
  let stack2 := st.stack.dropWhile (fun e => line.indent ≤ e.2)
  if stack2 = [] then .error .invalidResponse
  else
    let st := { st with stack := stack2 }
    if line.is_sequence then yml_process_sequence_line line st
    else yml_process_mapping_line line st

/-- The main loop of `yaml_core_parse_buffer` over the classified lines. -/
def yaml_core_parse_lines : YmlParseState → List (List Char) → Except EspErr YmlParseState
  | st, [] => .ok st
  | st, seg :: rest =>
    match yml_parse_content_line seg with
    | .error e => .error e
    | .ok none => yaml_core_parse_lines st rest
    | .ok (some line) =>
      match yml_parse_step st line with
      | .error e => .error e
      | .ok st2 => yaml_core_parse_lines st2 rest

/-- The initial parser state: a MAPPING root with indentation -1. -/
def yml_initial_state : YmlParseState :=
  { nodes := [{ type := .mapping, key := none, scalar := none, children := [] }]
    stack := [(0, -1)] }

/-- `yaml_core_parse_buffer(data, length, out_root)`: on success the node
store holds the finished tree, rooted at id 0. -/
def yaml_core_parse_buffer (data : String) : Except EspErr YmlParseState :=
  yaml_core_parse_lines yml_initial_state (yml_split_lines data.data)

/-! ### Test fixtures used by witnesses and counterexamples -/

/-- A resolver that resolves `x` to the number 42 and nothing else. -/
def yui_test_resolver_x42 : YuiResolver :=
  fun s => if s = "x" then some (.num 42) else none

/-- A resolver that resolves nothing. -/
def yui_test_resolver_none : YuiResolver :=
  fun _ => none

/-! ## Theorems -/

/-! ### C1: ternary evaluation (yui_expr_parse_ternary) -/

/-- C1 counterexample: the untaken ternary branch IS evaluated.  With a
truthy condition, the resolver is invoked for the identifier `x` sitting
in the false branch, and a division by zero in the false branch makes the
whole evaluation fail — both contradicting the claim that the untaken
branch is never evaluated. -/
theorem C1_counterexample_ternary_untaken_branch_is_evaluated :
    (yui_expr_eval "true ? 1 : x" yui_test_resolver_x42).2 = ["x"]
    ∧ (yui_expr_eval "true ? 1 : 2/0" yui_test_resolver_none).1 = .error .invalidArg := by
  constructor
  · with_unfolding_all rfl
  · with_unfolding_all rfl

set_option maxRecDepth 8000 in
/-- C1 (amended): the ternary returns the value of the branch selected by
the condition — `"true ? 1 : 2"` yields 1 with zero resolver invocations —
but both branches are parsed and evaluated: for every resolver, the
untaken branch's identifiers are resolved (and logged), and an error such
as division by zero inside the untaken branch fails the evaluation. -/
theorem C1_ternary_taken_branch_value_both_branches_evaluated :
    (∀ ρ : YuiResolver, yui_expr_eval "true ? 1 : 2" ρ = (.ok (.num 1), []))
    ∧ (∀ ρ : YuiResolver, yui_expr_eval "true ? 1 : x" ρ = (.ok (.num 1), ["x"]))
    ∧ (∀ ρ : YuiResolver, yui_expr_eval "false ? x : 2" ρ = (.ok (.num 2), ["x"]))
    ∧ (yui_expr_eval "true ? 1 : 2/0" yui_test_resolver_none).1 = .error .invalidArg := by
  refine ⟨fun ρ => ?_, fun ρ => ?_, fun ρ => ?_, ?_⟩
  · with_unfolding_all rfl
  · with_unfolding_all rfl
  · with_unfolding_all rfl
  · with_unfolding_all rfl

/-- C1 witness: the amended ternary theorem instantiated at a concrete
resolver. -/
theorem C1_ternary_witness :
    yui_expr_eval "true ? 1 : 2" yui_test_resolver_x42 = (.ok (.num 1), [])
    ∧ yui_expr_eval "true ? 1 : x" yui_test_resolver_x42 = (.ok (.num 1), ["x"]) :=
  ⟨C1_ternary_taken_branch_value_both_branches_evaluated.1 yui_test_resolver_x42,
   C1_ternary_taken_branch_value_both_branches_evaluated.2.1 yui_test_resolver_x42⟩

/-! ### C2: null-coalescing evaluation (yui_expr_parse_coalesce) -/

/-- C2 counterexample: the right side of `??` IS evaluated even when the
left side is non-null and non-empty.  The resolver is invoked for the
identifier `x` on the right of `1 ?? x`, and a division by zero on the
right of `1 ?? 2/0` makes the whole evaluation fail — both contradicting
the claim. -/
theorem C2_counterexample_coalesce_right_side_is_evaluated :
    (yui_expr_eval "1 ?? x" yui_test_resolver_x42).2 = ["x"]
    ∧ (yui_expr_eval "1 ?? 2/0" yui_test_resolver_none).1 = .error .invalidArg := by
  constructor
  · with_unfolding_all rfl
  · with_unfolding_all rfl

set_option maxRecDepth 8000 in
/-- C2 (amended): `??` short-circuits only in its VALUE: when the left
operand is non-null and not an empty string the result is the left value,
and a null or empty-string left operand selects the right value; but the
right operand is always parsed and evaluated — for every resolver its
identifiers are resolved (and logged), and an error inside it fails the
evaluation. -/
theorem C2_coalesce_value_short_circuit_right_still_evaluated :
    (∀ ρ : YuiResolver, yui_expr_eval "1 ?? x" ρ = (.ok (.num 1), ["x"]))
    ∧ yui_expr_eval "null ?? \"x\"" yui_test_resolver_none = (.ok (.str "x"), [])
    ∧ yui_expr_eval "\"\" ?? 2" yui_test_resolver_none = (.ok (.num 2), [])
    ∧ (yui_expr_eval "1 ?? 2/0" yui_test_resolver_none).1 = .error .invalidArg := by
  refine ⟨fun ρ => ?_, ?_, ?_, ?_⟩
  · with_unfolding_all rfl
  · with_unfolding_all rfl
  · with_unfolding_all rfl
  · with_unfolding_all rfl

/-- C2 witness: the amended coalescing theorem instantiated at a concrete
resolver. -/
theorem C2_coalesce_witness :
    yui_expr_eval "1 ?? x" yui_test_resolver_x42 = (.ok (.num 1), ["x"]) :=
  C2_coalesce_value_short_circuit_right_still_evaluated.1 yui_test_resolver_x42

/-! ### State-store lemmas -/

/-- Setting a key whose stored value already equals the new value leaves
the entry list untouched and reports no mutation. -/
theorem yui_state_entries_set_noop (es : List YuiStateEntry) (k v : String)
    (h : yui_state_get_opt es k = some v) :
    yui_state_entries_set es k v = (es, false) := by
  induction es with
  | nil => simp [yui_state_get_opt] at h
  | cons e rest ih =>
    by_cases hk : e.key = k
    · have hv : e.value = v := by
        simpa [yui_state_get_opt, hk] using h
      simp [yui_state_entries_set, hk, hv]
    · have h' : yui_state_get_opt rest k = some v := by
        simpa [yui_state_get_opt, hk] using h
      simp [yui_state_entries_set, hk, ih h']

/-- Setting a key whose stored value differs (or is absent) reports a
mutation. -/
theorem yui_state_entries_set_updated (es : List YuiStateEntry) (k v : String)
    (h : yui_state_get_opt es k ≠ some v) :
    (yui_state_entries_set es k v).2 = true := by
  induction es with
  | nil => simp [yui_state_entries_set]
  | cons e rest ih =>
    by_cases hk : e.key = k
    · have hv : e.value ≠ v := by
        intro hv
        exact h (by simp [yui_state_get_opt, hk, hv])
      simp [yui_state_entries_set, hk, hv]
    · have h' : yui_state_get_opt rest k ≠ some v := by
        simpa [yui_state_get_opt, hk] using h
      simp [yui_state_entries_set, hk, ih h']

/-- After a set, the key reads back the just-written value. -/
theorem yui_state_get_opt_after_set (es : List YuiStateEntry) (k v : String) :
    yui_state_get_opt (yui_state_entries_set es k v).1 k = some v := by
  induction es with
  | nil => simp [yui_state_entries_set, yui_state_get_opt]
  | cons e rest ih =>
    by_cases hk : e.key = k
    · by_cases hv : e.value = v
      · simp [yui_state_entries_set, hk, hv, yui_state_get_opt]
      · simp [yui_state_entries_set, hk, hv, yui_state_get_opt]
    · simp [yui_state_entries_set, hk, yui_state_get_opt, ih]

/-- A key that is absent is appended; present entries are untouched. -/
theorem yui_state_entries_set_absent (es : List YuiStateEntry) (k v : String)
    (h : yui_state_get_opt es k = none) :
    (yui_state_entries_set es k v).1 = es ++ [{ key := k, value := v }] := by
  induction es with
  | nil => simp [yui_state_entries_set]
  | cons e rest ih =>
    by_cases hk : e.key = k
    · simp [yui_state_get_opt, hk] at h
    · have h' : yui_state_get_opt rest k = none := by
        simpa [yui_state_get_opt, hk] using h
      simp [yui_state_entries_set, hk, ih h']

/-- A lookup that succeeds is unaffected by entries appended behind it. -/
theorem yui_state_get_opt_append (es l : List YuiStateEntry) (k v : String)
    (h : yui_state_get_opt es k = some v) :
    yui_state_get_opt (es ++ l) k = some v := by
  induction es with
  | nil => simp [yui_state_get_opt] at h
  | cons e rest ih =>
    by_cases hk : e.key = k
    · simpa [yui_state_get_opt, hk] using h
    · have h' : yui_state_get_opt rest k = some v := by
        simpa [yui_state_get_opt, hk] using h
      simpa [yui_state_get_opt, hk] using ih h'

/-! ### C6: value-equality short-circuit of set (yui_state_set_internal) -/

/-- C6: when the stored value at `k` already equals `v`, `set(k, v)`
mutates nothing and fires no watch callback; otherwise it commits the
value and notifies each matching watcher exactly once (in registration
order), and an immediately repeated `set(k, v)` mutates nothing and
notifies nobody — so two sets in a row notify each matching watcher
exactly once, on the first call only. -/
theorem C6_state_set_idempotent (st : YuiStateStore) (k v : String) (hk : k ≠ "") :
    (yui_state_get_opt st.entries k = some v →
      yui_state_set st k v = .ok (st, []))
    ∧ (yui_state_get_opt st.entries k ≠ some v →
      yui_state_set st k v =
        .ok ({ st with entries := (yui_state_entries_set st.entries k v).1 },
          (st.watchers.filter (fun w => yui_state_watch_matches w k)).map (fun w => w.id))
      ∧ yui_state_set { st with entries := (yui_state_entries_set st.entries k v).1 } k v =
        .ok ({ st with entries := (yui_state_entries_set st.entries k v).1 }, [])) := by
  constructor
  · intro h
    simp [yui_state_set, yui_state_set_internal, hk, yui_state_entries_set_noop st.entries k v h]
  · intro h
    constructor
    · simp [yui_state_set, yui_state_set_internal, hk,
        yui_state_entries_set_updated st.entries k v h]
    · have hsame : yui_state_get_opt (yui_state_entries_set st.entries k v).1 k = some v :=
        yui_state_get_opt_after_set st.entries k v
      simp [yui_state_set, yui_state_set_internal, hk,
        yui_state_entries_set_noop _ k v hsame]

/-- C6 witness: a store with one old entry and three watchers (an exact
match, a wildcard and a non-match); the first `set("k","v")` notifies the
matching watchers 1 and 2 exactly once each, the second notifies nobody. -/
theorem C6_state_set_witness :
    yui_state_set
      { entries := [{ key := "a", value := "old" }]
        watchers := [{ id := 1, key := "k" }, { id := 2, key := "" }, { id := 3, key := "z" }] }
      "k" "v" =
      .ok ({ entries := [{ key := "a", value := "old" }, { key := "k", value := "v" }]
             watchers := [{ id := 1, key := "k" }, { id := 2, key := "" }, { id := 3, key := "z" }] },
        [1, 2])
    ∧ yui_state_set
      { entries := [{ key := "a", value := "old" }, { key := "k", value := "v" }]
        watchers := [{ id := 1, key := "k" }, { id := 2, key := "" }, { id := 3, key := "z" }] }
      "k" "v" =
      .ok ({ entries := [{ key := "a", value := "old" }, { key := "k", value := "v" }]
             watchers := [{ id := 1, key := "k" }, { id := 2, key := "" }, { id := 3, key := "z" }] },
        []) := by
  have h := (C6_state_set_idempotent
    { entries := [{ key := "a", value := "old" }]
      watchers := [{ id := 1, key := "k" }, { id := 2, key := "" }, { id := 3, key := "z" }] }
    "k" "v" (by decide)).2 (by simp [yui_state_get_opt])
  exact ⟨h.1, h.2⟩

/-! ### C7: seed is silent but the pairs-based seed overwrites
(yui_state_seed, yui_state_seed_from_yaml) -/

/-- C7 counterexample: `yui_state_seed` DOES overwrite a key that already
has a value — seeding `("k","v2")` over a store holding `k = "v1"`
replaces the value (silently), contradicting the claim that seed never
overwrites an existing entry. -/
theorem C7_counterexample_seed_overwrites_existing_key :
    yui_state_seed { entries := [{ key := "k", value := "v1" }], watchers := [] }
      [("k", "v2")] =
      .ok ({ entries := [{ key := "k", value := "v2" }], watchers := [] }, []) := by
  with_unfolding_all rfl

/-- C7 (amended): seeding is silent — neither `yui_state_seed` nor
`yui_state_seed_from_yaml` ever fires a watch callback — and
`yui_state_seed_from_yaml` leaves every key that already has a value
unchanged; but the pairs-based `yui_state_seed` overwrites an existing
key's value (silently). -/
theorem C7_seed_silent_yaml_seed_preserves_existing :
    (∀ (st : YuiStateStore) (pairs : List (String × String)),
      ∃ st2, yui_state_seed st pairs = .ok (st2, []))
    ∧ (∀ (st : YuiStateStore) (children : List (Option String × Option String)),
      ∃ st2, yui_state_seed_from_yaml st children = .ok (st2, [])
        ∧ ∀ k v, yui_state_get_opt st.entries k = some v →
            yui_state_get_opt st2.entries k = some v)
    ∧ (∀ (st : YuiStateStore) (k v1 v2 : String), k ≠ "" →
      yui_state_get_opt st.entries k = some v1 →
      ∃ st2, yui_state_seed st [(k, v2)] = .ok (st2, [])
        ∧ yui_state_get_opt st2.entries k = some v2) := by
  refine ⟨?_, ?_, ?_⟩
  · intro st pairs
    induction pairs generalizing st with
    | nil => exact ⟨st, rfl⟩
    | cons p rest ih =>
      by_cases hk : p.1 = ""
      · obtain ⟨st2, h2⟩ := ih st
        exact ⟨st2, by simpa [yui_state_seed, hk] using h2⟩
      · obtain ⟨st2, h2⟩ := ih { st with entries := (yui_state_entries_set st.entries p.1 p.2).1 }
        refine ⟨st2, ?_⟩
        simp [yui_state_seed, hk, yui_state_set_internal, h2]
  · intro st children
    induction children generalizing st with
    | nil => exact ⟨st, rfl, fun k v h => h⟩
    | cons c rest ih =>
      match hc : c.1 with
      | none =>
        obtain ⟨st2, h2, hpres⟩ := ih st
        exact ⟨st2, by simpa [yui_state_seed_from_yaml, hc] using h2, hpres⟩
      | some k' =>
        by_cases hk' : k' = ""
        · obtain ⟨st2, h2, hpres⟩ := ih st
          exact ⟨st2, by simpa [yui_state_seed_from_yaml, hc, hk'] using h2, hpres⟩
        · match hex : yui_state_get_opt st.entries k' with
          | some w =>
            obtain ⟨st2, h2, hpres⟩ := ih st
            exact ⟨st2, by simpa [yui_state_seed_from_yaml, hc, hk', hex] using h2, hpres⟩
          | none =>
            obtain ⟨st2, h2, hpres⟩ :=
              ih { st with entries := (yui_state_entries_set st.entries k' (c.2.getD "")).1 }
            refine ⟨st2, ?_, ?_⟩
            · simp [yui_state_seed_from_yaml, hc, hk', hex, yui_state_set_internal, h2]
            · intro k v hv
              apply hpres
              have habs := yui_state_entries_set_absent st.entries k' (c.2.getD "") hex
              simpa [habs] using yui_state_get_opt_append st.entries _ k v hv
  · intro st k v1 v2 hk hv1
    refine ⟨{ st with entries := (yui_state_entries_set st.entries k v2).1 }, ?_, ?_⟩
    · simp [yui_state_seed, hk, yui_state_set_internal]
    · exact yui_state_get_opt_after_set st.entries k v2

/-- C7 witness: the amended seed theorem applied to a concrete one-entry
store: the pairs-based seed silently overwrites the entry. -/
theorem C7_seed_witness :
    ∃ st2, yui_state_seed { entries := [{ key := "k", value := "v1" }], watchers := [] }
        [("k", "v2")] = .ok (st2, [])
      ∧ yui_state_get_opt st2.entries "k" = some "v2" :=
  C7_seed_silent_yaml_seed_preserves_existing.2.2
    { entries := [{ key := "k", value := "v1" }], watchers := [] }
    "k" "v1" "v2" (by decide) (by simp [yui_state_get_opt])

/-! ### Navigation-queue lemmas and fixtures -/

/-- Running a request list through a payload-only executor, in order. -/
def yui_nav_run_all {σ : Type} (f : YuiNavRequest → σ → EspErr × σ)
    (reqs : List YuiNavRequest) (u : σ) : σ :=
  reqs.foldl (fun acc r => (f r acc).2) u

/-- A `Push("x")` request. -/
def yui_test_push_x : YuiNavRequest := { type := .push, arg := some "x" }

/-- A `Pop` request. -/
def yui_test_pop : YuiNavRequest := { type := .pop, arg := none }

/-- A logging executor: every request succeeds and is appended to the
log (the shape of the repository's own nav-queue unit-test executor). -/
def yui_test_log_executor : YuiNavRequest → List YuiNavRequest → EspErr × List YuiNavRequest :=
  fun r log => (.ok, log ++ [r])

/-- An executor wired to the modelled screen-frame stack: goto/push/pop
drive the navigation stack (with an always-succeeding renderer and a
loaded schema); the modal requests are out of the modelled scope and
rejected. -/
def yui_test_nav_stack_executor :
    YuiNavRequest → List YuiScreenFrame → EspErr × List YuiScreenFrame :=
  fun r st =>
    match r.type with
    | .goto_screen => yui_navigation_replace_top (fun _ => .ok) true none r.arg st
    | .push => yui_navigation_push (fun _ => .ok) true none r.arg st
    | .pop => yui_navigation_pop_internal (fun _ => .ok) st
    | .showModal => (.invalidState, st)
    | .closeModal => (.invalidState, st)

set_option maxRecDepth 4000 in
/-- Draining with a payload-only, always-succeeding executor empties the
queue, executing the requests in FIFO order. -/
theorem yui_nav_process_loop_drains {σ : Type} (f : YuiNavRequest → σ → EspErr × σ)
    (hf : ∀ r u, (f r u).1 = .ok) :
    ∀ (q : List YuiNavRequest) (fuel : Nat) (u : σ),
      q.length ≤ fuel →
      yui_nav_process_loop (yui_nav_lift_executor f) fuel
          { queue := q, rendering := false, user := u } =
        { queue := [], rendering := false, user := yui_nav_run_all f q u } := by
  intro q
  induction q with
  | nil =>
    intro fuel u _
    cases fuel with
    | zero => simp [yui_nav_process_loop, yui_nav_run_all]
    | succ fuel => simp [yui_nav_process_loop, yui_nav_run_all]
  | cons r rest ih =>
    intro fuel u hlen
    cases fuel with
    | zero => simp at hlen
    | succ fuel =>
      rcases hfr : f r u with ⟨e, u'⟩
      have he : e = EspErr.ok := by simpa [hfr] using hf r u
      subst he
      simp only [yui_nav_process_loop, yui_nav_lift_executor, hfr]
      simp only [ne_eq, not_true_eq_false, if_false, reduceIte]
      rw [ih fuel u' (Nat.le_of_succ_le_succ (by simpa using hlen))]
      simp [yui_nav_run_all, hfr]

/-! ### C4: navigation queue submit/defer/drain (yui_nav_queue_submit,
yui_nav_queue_process, yui_nav_queue_end_render) -/

/-- C4: for an initialized queue driven by an executor that only touches
its own state and always succeeds: `submit` executes the request
immediately and synchronously exactly when no render is in progress and
the deferred queue is empty; otherwise it appends the request to the FIFO
and returns success without executing anything; and `end_render(true)`
executes the requests deferred while Rendering in exactly their
submission order, emptying the queue. -/
theorem C4_nav_queue_submit_defer_drain {σ : Type}
    (f : YuiNavRequest → σ → EspErr × σ) (hf : ∀ r u, (f r u).1 = .ok) :
    (∀ (s : YuiNavQueueState σ) (r : YuiNavRequest),
      s.rendering = false → s.queue = [] →
      yui_nav_queue_submit (yui_nav_lift_executor f) r s =
        ((f r s.user).1, { s with user := (f r s.user).2 }))
    ∧ (∀ (s : YuiNavQueueState σ) (r : YuiNavRequest),
      s.rendering = true ∨ s.queue ≠ [] →
      yui_nav_queue_submit (yui_nav_lift_executor f) r s =
        (.ok, { s with queue := s.queue ++ [r] }))
    ∧ (∀ (s : YuiNavQueueState σ) (fuel : Nat),
      s.rendering = true → s.queue.length ≤ fuel →
      yui_nav_queue_end_render (yui_nav_lift_executor f) fuel true s =
        { queue := [], rendering := false, user := yui_nav_run_all f s.queue s.user }) := by
  refine ⟨?_, ?_, ?_⟩
  · intro s r hr hq
    rcases hfr : f r s.user with ⟨e, u'⟩
    simp [yui_nav_queue_submit, hr, hq, yui_nav_lift_executor, hfr]
  · intro s r h
    rcases h with h | h
    · simp [yui_nav_queue_submit, h]
    · simp [yui_nav_queue_submit, h]
  · intro s fuel hr hlen
    cases s with
    | mk q rend u =>
      simp only at hr
      subst hr
      simp only [yui_nav_queue_end_render, yui_nav_queue_process]
      simpa using yui_nav_process_loop_drains f hf q fuel u (by simpa using hlen)

/-- C4 witness: the specification scenario with a logging executor —
`begin_render()`; `submit(Push,"x")`; `submit(Pop)`; the queue depth is 2
with zero executions; `end_render(true)` then executes Push and Pop in
submission order and empties the queue. -/
theorem C4_nav_queue_witness :
    yui_nav_queue_begin_render (σ := List YuiNavRequest)
        { queue := [], rendering := false, user := [] } =
      (.ok, { queue := [], rendering := true, user := [] })
    ∧ yui_nav_queue_submit (yui_nav_lift_executor yui_test_log_executor) yui_test_push_x
        { queue := [], rendering := true, user := [] } =
      (.ok, { queue := [yui_test_push_x], rendering := true, user := [] })
    ∧ yui_nav_queue_submit (yui_nav_lift_executor yui_test_log_executor) yui_test_pop
        { queue := [yui_test_push_x], rendering := true, user := [] } =
      (.ok, { queue := [yui_test_push_x, yui_test_pop], rendering := true, user := [] })
    ∧ yui_nav_queue_depth (σ := List YuiNavRequest)
        { queue := [yui_test_push_x, yui_test_pop], rendering := true, user := [] } = 2
    ∧ yui_nav_queue_end_render (yui_nav_lift_executor yui_test_log_executor) 2 true
        { queue := [yui_test_push_x, yui_test_pop], rendering := true, user := [] } =
      { queue := [], rendering := false, user := [yui_test_push_x, yui_test_pop] } := by
  refine ⟨by with_unfolding_all rfl, ?_, ?_, by with_unfolding_all rfl, ?_⟩
  · exact (C4_nav_queue_submit_defer_drain yui_test_log_executor (fun _ _ => rfl)).2.1
      { queue := [], rendering := true, user := [] } yui_test_push_x (Or.inl rfl)
  · exact (C4_nav_queue_submit_defer_drain yui_test_log_executor (fun _ _ => rfl)).2.1
      { queue := [yui_test_push_x], rendering := true, user := [] } yui_test_pop (Or.inl rfl)
  · exact (C4_nav_queue_submit_defer_drain yui_test_log_executor (fun _ _ => rfl)).2.2
      { queue := [yui_test_push_x, yui_test_pop], rendering := true, user := [] } 2 rfl
      (by decide)

/-! ### C8: a failing drained request stops the drain
(yui_nav_queue_process, yui_nav_queue_end_render) -/

/-- C8 counterexample: drain with the modelled navigation-stack executor
over a single root frame.  The deferred queue holds `Pop` then
`Push("x")`; draining with `end_render(true)` pops the failing `Pop`
(rejected on the root frame) and then STOPS: the sibling `Push("x")` is
not executed during that drain (the stack still has only the root frame)
and remains in the queue — contradicting the claim that every queued
sibling behind a failed request is still executed in the same drain. -/
theorem C8_counterexample_drain_stops_at_failed_request :
    yui_nav_queue_end_render (yui_nav_lift_executor yui_test_nav_stack_executor) 2 true
      { queue := [yui_test_pop, yui_test_push_x], rendering := true
        user := [{ screen_name := some "root" }] } =
      { queue := [yui_test_push_x], rendering := false
        user := [{ screen_name := some "root" }] } := by
  with_unfolding_all rfl

/-- C8 (amended): when `end_render(true)` drains the deferred queue and
the executed request fails, the failure stops the drain: the failing
request has been consumed, but the sibling requests queued behind it are
NOT executed during that drain — they simply remain in the queue. -/
theorem C8_failed_drain_request_leaves_siblings_queued {σ : Type}
    (f : YuiNavRequest → σ → EspErr × σ) :
    ∀ (s : YuiNavQueueState σ) (r : YuiNavRequest) (rest : List YuiNavRequest) (fuel : Nat),
      s.rendering = true → s.queue = r :: rest → (f r s.user).1 ≠ .ok → 1 ≤ fuel →
      yui_nav_queue_end_render (yui_nav_lift_executor f) fuel true s =
        { queue := rest, rendering := false, user := (f r s.user).2 } := by
  intro s r rest fuel hr hq hfail hfuel
  cases s with
  | mk q rend u =>
    simp only at hr hq
    subst hr
    subst hq
    cases fuel with
    | zero => simp at hfuel
    | succ fuel =>
      rcases hfr : f r u with ⟨e, u'⟩
      have he : e ≠ .ok := by
        rw [hfr] at hfail
        simpa using hfail
      simp only [yui_nav_queue_end_render, yui_nav_queue_process, yui_nav_process_loop,
        yui_nav_lift_executor, hfr]
      simp [he, hfr]

/-- C8 witness: the amended theorem instantiated at the counterexample
state - the failing Pop is consumed, the sibling Push stays queued. -/
theorem C8_failed_drain_witness :
    yui_nav_queue_end_render (yui_nav_lift_executor yui_test_nav_stack_executor) 5 true
      { queue := [yui_test_pop, yui_test_push_x], rendering := true
        user := [{ screen_name := some "root" }] } =
      { queue := [yui_test_push_x], rendering := false
        user := [{ screen_name := some "root" }] } :=
  C8_failed_drain_request_leaves_siblings_queued yui_test_nav_stack_executor
    { queue := [yui_test_pop, yui_test_push_x], rendering := true
      user := [{ screen_name := some "root" }] }
    yui_test_pop [yui_test_push_x] 5 rfl rfl (by with_unfolding_all decide) (by decide)

/-! ### C5: the navigation stack never drops below one frame
(yui_navigation_pop_internal and friends) -/

/-- C5: popping a single-frame stack always fails with no mutation, and
for every sequence of navigation operations applied to a non-empty stack
(any initialized state), the stack stays non-empty: the depth never drops
below 1. -/
theorem C5_nav_stack_root_preserved :
    (∀ (render : YuiScreenFrame → EspErr) (f : YuiScreenFrame),
      yui_navigation_pop_internal render [f] = (.invalidState, [f]))
    ∧ (∀ (render : YuiScreenFrame → EspErr) (loaded : Bool)
        (defaultScreen : Option String) (ops : List YuiNavOp) (st0 : List YuiScreenFrame),
      st0 ≠ [] → yui_navigation_run render loaded defaultScreen ops st0 ≠ []) := by
  constructor
  · intro render f
    simp [yui_navigation_pop_internal]
  · intro render loaded defaultScreen ops
    induction ops with
    | nil => intro st0 h; simpa [yui_navigation_run] using h
    | cons op rest ih =>
      intro st0 h
      have hstep : (yui_navigation_step render loaded defaultScreen op st0).2 ≠ [] := by
        cases op with
        | pushOp s =>
          by_cases hl : loaded
          · simp [yui_navigation_step, yui_navigation_push, hl]
          · simpa [yui_navigation_step, yui_navigation_push, hl] using h
        | gotoOp s =>
          cases st0 with
          | nil => exact absurd rfl h
          | cons fr rest' =>
            by_cases hl : loaded
            · simp [yui_navigation_step, yui_navigation_replace_top]
            · simp [yui_navigation_step, yui_navigation_replace_top]
        | popOp =>
          cases st0 with
          | nil => exact absurd rfl h
          | cons fr rest' =>
            cases rest' with
            | nil => simp [yui_navigation_step, yui_navigation_pop_internal]
            | cons fr2 rest'' =>
              have hlen : ¬((fr :: fr2 :: rest'').length ≤ 1) := by
                simp [List.length_cons]
              simp [yui_navigation_step, yui_navigation_pop_internal, hlen]
      have := ih (yui_navigation_step render loaded defaultScreen op st0).2 hstep
      simpa [yui_navigation_run] using this

/-- C5 witness: a pop on a concrete single-frame stack fails and leaves
the frame, and a concrete operation sequence from a one-frame stack
leaves the stack non-empty. -/
theorem C5_nav_stack_witness :
    yui_navigation_pop_internal (fun _ => .ok) [{ screen_name := some "root" }] =
      (.invalidState, [{ screen_name := some "root" }])
    ∧ yui_navigation_run (fun _ => .ok) true none
        [.pushOp (some "x"), .popOp, .popOp, .gotoOp (some "y"), .popOp]
        [{ screen_name := some "root" }] ≠ [] :=
  ⟨C5_nav_stack_root_preserved.1 (fun _ => .ok) { screen_name := some "root" },
   C5_nav_stack_root_preserved.2 (fun _ => .ok) true none
     [.pushOp (some "x"), .popOp, .popOp, .gotoOp (some "y"), .popOp]
     [{ screen_name := some "root" }] (by decide)⟩

/-! ### YAML parser lemmas and fixtures -/

/-- A document with `n` nested mapping keys, one more space of
indentation per level. -/
def yml_deep_doc (n : Nat) : String :=
  String.join ((List.range n).map (fun i => String.mk (List.replicate i ' ') ++ "k:\n"))

/-- The tree produced for the document `"a:\n    b: 1\n  c: 2"`, whose
third line's indentation (2) matches no ancestor indentation exactly:
`c` is attached under `a`, the nearest ancestor with a strictly smaller
indentation. -/
def yml_c9_expected : YmlParseState where
  nodes := [
    { type := .mapping, key := none, scalar := none, children := [1] },
    { type := .mapping, key := some "a", scalar := none, children := [2, 3] },
    { type := .scalar, key := some "b", scalar := some "1", children := [] },
    { type := .scalar, key := some "c", scalar := some "2", children := [] }]
  stack := [(1, 0), (0, -1)]

/-- Dropping a prefix never lengthens a list. -/
theorem yml_length_dropWhile_le {α : Type} (p : α → Bool) (l : List α) :
    (l.dropWhile p).length ≤ l.length := by
  induction l with
  | nil => simp
  | cons a t ih =>
    by_cases h : p a
    · simp only [List.dropWhile_cons, h, if_true, List.length_cons]
      omega
    · simp [List.dropWhile_cons, h]

/-- The guarded stack push always yields a stack within the depth bound
(it fails instead of exceeding it). -/
theorem yml_stack_push_depth (st : YmlParseState) (id : Nat) (indent : Int)
    (st2 : YmlParseState) (h : yml_stack_push st id indent = .ok st2) :
    st2.stack.length ≤ YML_MAX_STACK_DEPTH := by
  unfold yml_stack_push at h
  split at h
  · exact absurd h (by simp)
  · injection h with h2
    subst h2
    simp only [List.length_cons]
    omega

/-- A successful sequence-line step keeps the stack within the depth
bound. -/
theorem yml_process_sequence_line_depth (line : YmlLine) (st st2 : YmlParseState)
    (h : yml_process_sequence_line line st = .ok st2)
    (hd : st.stack.length ≤ YML_MAX_STACK_DEPTH) :
    st2.stack.length ≤ YML_MAX_STACK_DEPTH := by
  unfold yml_process_sequence_line at h
  simp only [] at h
  repeat' split at h
  all_goals try exact yml_stack_push_depth _ _ _ _ h
  all_goals simp [yml_store_set, yml_store_append_child, yml_store_new_node, yml_store_get] at h
  all_goals subst h
  all_goals simpa using hd

/-- A successful mapping-line step keeps the stack within the depth
bound. -/
theorem yml_process_mapping_line_depth (line : YmlLine) (st st2 : YmlParseState)
    (h : yml_process_mapping_line line st = .ok st2)
    (hd : st.stack.length ≤ YML_MAX_STACK_DEPTH) :
    st2.stack.length ≤ YML_MAX_STACK_DEPTH := by
  unfold yml_process_mapping_line at h
  simp only [] at h
  repeat' split at h
  all_goals try exact yml_stack_push_depth _ _ _ _ h
  all_goals simp [yml_store_set, yml_store_append_child, yml_store_new_node, yml_store_get] at h
  all_goals subst h
  all_goals simpa using hd

/-- One whole parse-loop iteration keeps the stack within the depth
bound. -/
theorem yml_parse_step_depth (st : YmlParseState) (line : YmlLine) (st2 : YmlParseState)
    (hd : st.stack.length ≤ YML_MAX_STACK_DEPTH)
    (h : yml_parse_step st line = .ok st2) :
    st2.stack.length ≤ YML_MAX_STACK_DEPTH := by
  unfold yml_parse_step at h
  simp only [] at h
  have hdrop : (st.stack.dropWhile (fun e => line.indent ≤ e.2)).length ≤ YML_MAX_STACK_DEPTH :=
    le_trans (yml_length_dropWhile_le _ _) hd
  split at h
  · simp at h
  · split at h
    · exact yml_process_sequence_line_depth _ _ _ h hdrop
    · exact yml_process_mapping_line_depth _ _ _ h hdrop

/-- The main parse loop keeps the stack within the depth bound across
every iteration. -/
theorem yaml_core_parse_lines_depth :
    ∀ (segs : List (List Char)) (st st2 : YmlParseState),
      st.stack.length ≤ YML_MAX_STACK_DEPTH →
      yaml_core_parse_lines st segs = .ok st2 →
      st2.stack.length ≤ YML_MAX_STACK_DEPTH := by
  intro segs
  induction segs with
  | nil =>
    intro st st2 hd h
    unfold yaml_core_parse_lines at h
    injection h with h2
    subst h2
    exact hd
  | cons seg rest ih =>
    intro st st2 hd h
    unfold yaml_core_parse_lines at h
    split at h
    · exact absurd h (by simp)
    · exact ih st st2 hd h
    · split at h
      · exact absurd h (by simp)
      · rename_i stMid hstep
        exact ih stMid st2 (yml_parse_step_depth _ _ _ hd hstep) h

/-! ### C9: indentation pops and the unmatched-indentation case
(yaml_core_parse_buffer) -/

set_option maxRecDepth 20000 in
/-- C9 counterexample: the document `"a:\n    b: 1\n  c: 2"` contains a
line (`  c: 2`, indentation 2) whose indentation matches no ancestor on
the parse stack (the stack holds indentations -1 and 0 at that point),
yet the parse SUCCEEDS and returns a tree, with `c` attached under `a` —
contradicting the claim that such a document fails with a fatal parse
error. -/
theorem C9_counterexample_unmatched_indent_is_not_fatal :
    yaml_core_parse_buffer "a:\n    b: 1\n  c: 2" = .ok yml_c9_expected := by
  with_unfolding_all rfl

set_option maxRecDepth 20000 in
/-- C9 (amended): a line whose indentation is less than or equal to the
stack top's pops the parse stack to the nearest ancestor with STRICTLY
SMALLER indentation; this never empties the stack (the implicit root
carries indentation -1, below every real line's indentation), so an
indentation that matches no ancestor exactly is not an error — the line
simply attaches under that nearest shallower ancestor, and the parse
succeeds (the depth==0 fatal-error branch is unreachable). -/
theorem C9_indent_pops_to_nearest_shallower_ancestor :
    (∀ (stack : List (Nat × Int)) (ind : Int), 0 ≤ ind →
      stack.getLast?.map Prod.snd = some (-1) →
      stack.dropWhile (fun e => ind ≤ e.2) ≠ []
      ∧ ∀ e ∈ (stack.dropWhile (fun e => ind ≤ e.2)).head?, e.2 < ind)
    ∧ (yaml_core_parse_buffer "a:\n    b: 1\n  c: 2").isOk = true := by
  constructor
  · intro stack
    induction stack with
    | nil => intro ind hind hlast; simp at hlast
    | cons e rest ih =>
      intro ind hind hlast
      cases rest with
      | nil =>
        simp only [List.getLast?_singleton, Option.map_some] at hlast
        have he : e.2 = -1 := by simpa using hlast
        have hne : ¬(ind ≤ e.2) := by omega
        constructor
        · simp [List.dropWhile_cons, hne]
        · intro x hx
          simp [List.dropWhile_cons, hne] at hx
          subst hx
          omega
      | cons e2 rest2 =>
        have hlast2 : (e2 :: rest2).getLast?.map Prod.snd = some (-1) := by
          simpa [List.getLast?_cons_cons] using hlast
        by_cases hp : ind ≤ e.2
        · have := ih ind hind hlast2
          simpa [List.dropWhile_cons, hp] using this
        · constructor
          · simp [List.dropWhile_cons, hp]
          · intro x hx
            simp [List.dropWhile_cons, hp] at hx
            subst hx
            omega
  · with_unfolding_all rfl

/-- C9 witness: popping for a line of indentation 2 over the concrete
stack [(2,4), (1,0), (0,-1)] stops at the entry of indentation 0 — the
nearest ancestor with strictly smaller indentation — and never empties
the stack. -/
theorem C9_indent_pop_witness :
    ([((2 : Nat), (4 : Int)), (1, 0), (0, -1)].dropWhile (fun e => (2 : Int) ≤ e.2) ≠ []
      ∧ ∀ e ∈ ([((2 : Nat), (4 : Int)), (1, 0), (0, -1)].dropWhile
          (fun e => (2 : Int) ≤ e.2)).head?, e.2 < 2) :=
  C9_indent_pops_to_nearest_shallower_ancestor.1 [(2, 4), (1, 0), (0, -1)] 2
    (by decide) (by decide)

/-! ### C10: the parse stack never exceeds 32 entries
(YML_MAX_STACK_DEPTH, yml_process_mapping_line, yml_process_sequence_line) -/

set_option maxRecDepth 20000 in
/-- C10: the parse stack (root included) never exceeds
`YML_MAX_STACK_DEPTH = 32` entries: every loop iteration preserves the
bound from the one-entry initial stack, so any tree the parser returns
was built without ever exceeding it; a line that would open a 33rd level
fails the whole parse (a document with 32 nested mapping keys errors
out), while 31 nested keys still parse. -/
theorem C10_parse_stack_depth_bounded :
    (∀ (st : YmlParseState) (line : YmlLine) (st2 : YmlParseState),
      st.stack.length ≤ YML_MAX_STACK_DEPTH →
      yml_parse_step st line = .ok st2 →
      st2.stack.length ≤ YML_MAX_STACK_DEPTH)
    ∧ yml_initial_state.stack.length ≤ YML_MAX_STACK_DEPTH
    ∧ (∀ (data : String) (st2 : YmlParseState),
      yaml_core_parse_buffer data = .ok st2 →
      st2.stack.length ≤ YML_MAX_STACK_DEPTH)
    ∧ (yaml_core_parse_buffer (yml_deep_doc 32)).isOk = false
    ∧ (yaml_core_parse_buffer (yml_deep_doc 31)).isOk = true := by
  refine ⟨?_, ?_, ?_, ?_, ?_⟩
  · intro st line st2 hd h
    exact yml_parse_step_depth st line st2 hd h
  · decide
  · intro data st2 h
    exact yaml_core_parse_lines_depth _ _ _ (by decide) h
  · with_unfolding_all rfl
  · with_unfolding_all rfl

set_option maxRecDepth 20000 in
/-- C10 witness: the bound-preservation part applied to one concrete loop
iteration (the line `k:` over the initial state), and the whole-parse
part applied to the concrete one-line document. -/
theorem C10_parse_stack_depth_witness :
    ({ nodes := [
        { type := .mapping, key := none, scalar := none, children := [1] },
        { type := .unset, key := some "k", scalar := none, children := [] }]
       stack := [(1, 0), (0, -1)] } : YmlParseState).stack.length ≤ YML_MAX_STACK_DEPTH :=
  C10_parse_stack_depth_bounded.1 yml_initial_state
    { indent := 0, is_sequence := false, has_colon := true, key := some "k", value := none }
    { nodes := [
        { type := .mapping, key := none, scalar := none, children := [1] },
        { type := .unset, key := some "k", scalar := none, children := [] }]
      stack := [(1, 0), (0, -1)] }
    (by decide) (by with_unfolding_all rfl)

/-! ### Scope/interpolation lemmas -/

/-- Templates containing no `\x7b\x7b` opener: such text is copied
literally by the interpolation loop. -/
def yui_no_open_brace_pair : List Char → Bool
  | [] => true
  | c :: rest =>
    if c = '{' && rest.head? = some '{' then false
    else yui_no_open_brace_pair rest

/-- The interpolation loop copies text without an opening double brace
literally, as long as it fits the output buffer. -/
theorem yui_format_text_loop_copies (res : String → YuiValue) (out_len : Nat) :
    ∀ (cs : List Char) (fuel : Nat) (acc : List Char),
      yui_no_open_brace_pair cs = true →
      cs.length ≤ fuel →
      acc.length + cs.length < out_len →
      yui_format_text_loop res out_len fuel cs acc = acc ++ cs := by
  intro cs
  induction cs with
  | nil =>
    intro fuel acc _ _ _
    cases fuel with
    | zero => simp [yui_format_text_loop]
    | succ fuel => simp [yui_format_text_loop]
  | cons c rest ih =>
    intro fuel acc hb hfuel hroom
    cases fuel with
    | zero => simp at hfuel
    | succ fuel =>
      simp only [yui_no_open_brace_pair] at hb
      by_cases hc : (c = '{' && rest.head? = some '{') = true
      · simp [hc] at hb
      · have hbrest : yui_no_open_brace_pair rest = true := by
          simpa [hc] using hb
        have hguard : acc.length + 1 < out_len := by
          simp only [List.length_cons] at hroom
          omega
        simp only [yui_format_text_loop]
        rw [if_pos hguard, if_neg (by simpa using hc)]
        rw [ih fuel (acc ++ [c]) hbrest (by simpa using Nat.le_of_succ_le_succ hfuel)
          (by
            have h1 : (acc ++ [c]).length = acc.length + 1 := by simp
            simp only [List.length_cons] at hroom
            rw [h1]
            omega)]
        simp

/-- A brace-free template short enough for the text buffer formats to
itself, at every chain-descent fuel. -/
theorem yui_format_text_literal (fuel : Nat) (tmpl : String) (chain : YuiScopeChain)
    (store : List YuiStateEntry)
    (hb : yui_no_open_brace_pair tmpl.data = true) (hlen : tmpl.length ≤ 255) :
    yui_format_text (fuel + 1) tmpl chain store 256 = tmpl := by
  have hld : tmpl.data.length = tmpl.length := rfl
  show yui_mk_format_text (yui_scope_fns fuel).1 tmpl chain store 256 = tmpl
  unfold yui_mk_format_text
  rw [if_neg (by decide)]
  rw [yui_format_text_loop_copies _ 256 tmpl.data (tmpl.length + 1) [] hb (by omega)
    (by simp only [List.length_nil]; omega)]
  rfl

set_option maxRecDepth 8000 in
/-- Formatting the single-token template `\x7b\x7blabel\x7d\x7d` reduces
to one resolver lookup of `label`, rendered and truncated to the buffer. -/
theorem yui_format_text_span_label (chain : YuiScopeChain) (store : List YuiStateEntry) :
    yui_format_text 3 "{{label}}" chain store 256 =
      String.mk ((yui_expr_as_cstring
        ((yui_scope_fns 2).1 chain store "label")).data.take 255) := by
  with_unfolding_all rfl

/-- When the scope chain declares the identifier as a prop, the resolver
answers with the prop's template formatted against the parent chain. -/
theorem yui_resolver_prop (props : List YuiComponentProp) (parent : YuiScopeChain)
    (store : List YuiStateEntry) (prop : YuiComponentProp)
    (hfind : yui_scope_find_prop (props :: parent) "label" = some prop) :
    (yui_scope_fns 2).1 (props :: parent) store "label" =
      .str (yui_format_text 1 prop.template_value parent store 256) := by
  show yui_mk_symbol_resolver (yui_scope_fns 1).2 (props :: parent) store "label" =
    .str (yui_format_text 1 prop.template_value parent store 256)
  unfold yui_mk_symbol_resolver yui_mk_resolve_prop
  rw [if_neg (by decide), if_pos (by simp)]
  rw [hfind]
  rfl

/-- When no prop along the chain matches the identifier, the resolver
falls back to a global state-store lookup with an empty default. -/
theorem yui_resolver_state_fallback (fuel : Nat) (chain : YuiScopeChain)
    (store : List YuiStateEntry) (ident : String) (hid : ident ≠ "")
    (hfind : yui_scope_find_prop chain ident = none) :
    yui_expression_symbol_resolver (fuel + 1) chain store ident =
      .str (yui_state_get store ident "") := by
  show yui_mk_symbol_resolver (yui_scope_fns fuel).2 chain store ident =
    .str (yui_state_get store ident "")
  unfold yui_mk_symbol_resolver yui_mk_resolve_prop
  rw [if_neg hid]
  by_cases hc : chain = []
  · rw [if_neg (by simp [hc])]
  · rw [if_pos (by simp [hc]), hfind]

/-! ### C3: component props shadow the state store
(yui_expression_symbol_resolver, yui_scope_find_prop) -/

/-- C3: for every component scope chain declaring a prop named `label`
(with a literal caller-supplied value that fits the text buffer) and
EVERY state store — in particular one that also contains a key `label` —
resolving the template token `\x7b\x7blabel\x7d\x7d` yields the prop's
value, searched through the scope chain first, not the state store's
value; and an identifier matching no prop in the scope chain falls back
to a global state-store lookup. -/
theorem C3_component_props_shadow_state :
    (∀ (props : List YuiComponentProp) (parent : YuiScopeChain)
        (store : List YuiStateEntry) (prop : YuiComponentProp),
      yui_scope_find_prop (props :: parent) "label" = some prop →
      yui_no_open_brace_pair prop.template_value.data = true →
      prop.template_value.length ≤ 255 →
      yui_format_text 3 "{{label}}" (props :: parent) store 256 = prop.template_value)
    ∧ (∀ (fuel : Nat) (chain : YuiScopeChain) (store : List YuiStateEntry) (ident : String),
      ident ≠ "" → yui_scope_find_prop chain ident = none →
      yui_expression_symbol_resolver (fuel + 1) chain store ident =
        .str (yui_state_get store ident "")) := by
  constructor
  · intro props parent store prop hfind hb hlen
    rw [yui_format_text_span_label, yui_resolver_prop props parent store prop hfind]
    show String.mk ((yui_format_text 1 prop.template_value parent store 256).data.take 255) =
      prop.template_value
    rw [yui_format_text_literal 0 prop.template_value parent store hb hlen]
    rw [List.take_of_length_le (by simpa using hlen)]
  · intro fuel chain store ident hid hfind
    exact yui_resolver_state_fallback fuel chain store ident hid hfind

/-- C3 witness: a component scope declaring prop `label = "Hello"` over a
store whose `label` key holds `"FromState"`: the token resolves to
`"Hello"`; and the identifier `missing`, declared by no prop, resolves
from the store. -/
theorem C3_scope_shadowing_witness :
    yui_format_text 3 "{{label}}" [[{ name := "label", template_value := "Hello" }]]
      [{ key := "label", value := "FromState" }] 256 = "Hello"
    ∧ yui_expression_symbol_resolver 3 [[{ name := "label", template_value := "Hello" }]]
      [{ key := "missing", value := "stateval" }] "missing" = .str "stateval" :=
  ⟨C3_component_props_shadow_state.1 [{ name := "label", template_value := "Hello" }] []
      [{ key := "label", value := "FromState" }] { name := "label", template_value := "Hello" }
      (by with_unfolding_all rfl) (by decide) (by decide),
   C3_component_props_shadow_state.2 2 [[{ name := "label", template_value := "Hello" }]]
      [{ key := "missing", value := "stateval" }] "missing" (by decide)
      (by with_unfolding_all rfl)⟩

end KcTouch
